import Mathlib

/-!
Formal model of the Buyer Leads server core: the zod validation schemas
(buyerSchema, updateBuyerSchema, csvRowSchema, filtersSchema), the buyer
update handler (PUT /:id), the CSV bulk-import handler (POST /import) and
the CSV export row mapping (GET /export), together with theorems checking
the specification claims against this model.

Conventions of the embedding:
- JavaScript runtime values that flow through the dynamic parts of the
  handlers are modelled by the JVal type; null is JVal.null.
- A JSON body field that may be absent is an Option; none means the key
  is absent (undefined), some v means present with value v.
- Timestamps are modelled by their epoch-milliseconds denotation (Int).
  A datetime string is a TimeStr: its text plus the instant it denotes;
  the JS expression new Date(s).getTime() is TimeStr.epochMs.
- zod error reporting is modelled as the list of rendered strings
  "path: message" in schema shape order, as the import handler renders
  them; message texts follow the messages given in the source, with
  abbreviated zod default texts where the source gives none.
-/

/-- A JavaScript value as it appears in the dynamic field loop of the
update handler: null, a string, a number (the schema admits only
integers), or an array of strings (tags). -/
inductive JVal where
  | null : JVal
  | str : String → JVal
  | int : Int → JVal
  | arr : List String → JVal
deriving DecidableEq, Repr

/-- JS strict inequality (the !== of the change-tracking loop) between a
stored column value and a payload value. Primitive values compare by
value; two arrays are distinct heap objects in this code path (one comes
from the parsed request body, the other from a fresh database read), so
array against array is always unequal (reference comparison). -/
def jsStrictNe (a b : JVal) : Bool :=
  match a, b with
  | .arr _, .arr _ => true
  | a, b => a != b

/-- The normalization applied to a supplied update value before it is
written: the JS expression (value === "" ? null : value). -/
def jvNormalize (v : JVal) : JVal :=
  if v = .str "" then .null else v

-- Enum domains, from the zod enums in the validation module.

def cityEnum : List String := ["Chandigarh", "Mohali", "Zirakpur", "Panchkula", "Other"]

def propertyTypeEnum : List String := ["Apartment", "Villa", "Plot", "Office", "Retail"]

def bhkEnum : List String := ["1", "2", "3", "4", "Studio"]

def purposeEnum : List String := ["Buy", "Rent"]

def timelineEnum : List String := ["0-3m", "3-6m", ">6m", "Exploring"]

def sourceEnum : List String := ["Website", "Referral", "Walk-in", "Call", "Other"]

def statusEnum : List String :=
  ["New", "Qualified", "Contacted", "Visited", "Negotiation", "Converted", "Dropped"]

-- Email validity, modelling the default zod email pattern:
-- local part of word characters, plus, minus, dots and apostrophe, not
-- starting with a dot, not ending in a dot or apostrophe, no adjacent
-- dots anywhere; an at sign; then dot-separated domain labels, each
-- starting alphanumeric and continuing alphanumeric or hyphen, ending
-- in an alphabetic top-level label of length at least two.

/-- Characters allowed in the local part of an email (code point 39 is
the apostrophe). -/
def isEmailLocalChar (c : Char) : Bool :=
  c.isAlpha || c.isDigit || c == '_' || c == '+' || c == '-' || c == '.' || c.toNat == 39

/-- Characters allowed as the final character of the local part. -/
def isEmailLocalLastChar (c : Char) : Bool :=
  c.isAlpha || c.isDigit || c == '_' || c == '+' || c == '-'

/-- Whether a character list contains two adjacent dots. -/
def hasDoubleDot : List Char → Bool
  | [] => false
  | [_] => false
  | a :: b :: rest => (a == '.' && b == '.') || hasDoubleDot (b :: rest)

/-- Local-part shape check (the adjacent-dot exclusion is applied to the
whole address by isEmail, as the pattern anchors it at the start). -/
def emailLocalOk (cs : List Char) : Bool :=
  match cs.head?, cs.getLast? with
  | some c0, some cl =>
      cs.all isEmailLocalChar && isEmailLocalLastChar cl && c0 != '.'
  | _, _ => false

/-- A single interior domain label: alphanumeric head, then alphanumeric
or hyphen. -/
def domainLabelOk (l : String) : Bool :=
  match l.toList with
  | [] => false
  | c :: rest => (c.isAlpha || c.isDigit) && rest.all (fun d => d.isAlpha || d.isDigit || d == '-')

/-- The final domain label: at least two characters, all alphabetic. -/
def tldOk (l : String) : Bool :=
  2 ≤ l.length && l.toList.all Char.isAlpha

/-- Domain shape: at least two dot-separated labels, interior labels per
domainLabelOk, final label per tldOk. -/
def emailDomainOk (dp : String) : Bool :=
  let labels := dp.splitOn "."
  2 ≤ labels.length && labels.dropLast.all domainLabelOk &&
    (match labels.getLast? with
     | some t => tldOk t
     | none => false)

/-- Email validity check used by the buyer schema email field. -/
def isEmail (s : String) : Bool :=
  match s.splitOn "@" with
  | [lp, dp] => !hasDoubleDot s.toList && emailLocalOk lp.toList && emailDomainOk dp
  | _ => false

-- Scalar field checks, from the buyer schema field definitions.

/-- Full name bound: 2 to 80 characters inclusive. -/
def fullNameOk (s : String) : Bool := 2 ≤ s.length && s.length ≤ 80

/-- Phone check: 10 to 15 characters, all decimal digits. -/
def phoneOk (s : String) : Bool :=
  10 ≤ s.length && s.length ≤ 15 && s.toList.all Char.isDigit

/-- Notes bound: at most 1000 characters. -/
def notesOk (s : String) : Bool := s.length ≤ 1000

/-- A candidate record as supplied in a JSON request body; none marks an
absent key. Budget values are modelled as integers (the schema rejects
non-integers and those never arise in the claims). -/
structure Candidate where
  fullName : Option String := none
  email : Option String := none
  phone : Option String := none
  city : Option String := none
  propertyType : Option String := none
  bhk : Option String := none
  purpose : Option String := none
  budgetMin : Option Int := none
  budgetMax : Option Int := none
  timeline : Option String := none
  source : Option String := none
  status : Option String := none
  notes : Option String := none
  tags : Option (List String) := none
deriving DecidableEq, Repr

/-- The output of a successful full-record validation: the parsed buyer
data, with the status default applied and tags defaulted to empty. The
email field may hold the empty string (the schema admits it via the
empty-string literal alternative). -/
structure Lead where
  fullName : String
  email : Option String
  phone : String
  city : String
  propertyType : String
  bhk : Option String
  purpose : String
  budgetMin : Option Int
  budgetMax : Option Int
  timeline : String
  source : String
  status : String
  notes : Option String
  tags : List String
deriving DecidableEq, Repr

-- Per-field parsers. Each returns the parsed value or one rendered
-- issue string "path: message".

/-- fullName: required string of 2 to 80 characters. -/
def parseFullName : Option String → Except String String
  | none => .error "fullName: Required"
  | some s =>
      if s.length < 2 then .error "fullName: Full name must be at least 2 characters"
      else if 80 < s.length then .error "fullName: Full name must be less than 80 characters"
      else .ok s

/-- email: optional; a valid email or the empty-string literal. -/
def parseEmail : Option String → Except String (Option String)
  | none => .ok none
  | some s =>
      if s == "" then .ok (some "")
      else if isEmail s then .ok (some s)
      else .error "email: Invalid email format"

/-- phone: required, 10 to 15 digits. -/
def parsePhone : Option String → Except String String
  | none => .error "phone: Required"
  | some s => if phoneOk s then .ok s else .error "phone: Phone must be 10-15 digits"

/-- A required enum field. -/
def parseEnum (field : String) (dom : List String) : Option String → Except String String
  | none => .error (field ++ ": Required")
  | some s => if dom.contains s then .ok s else .error (field ++ ": Invalid option")

/-- An optional enum field (undefined passes; any present value must be
in the domain, so a present empty string is rejected). -/
def parseEnumOpt (field : String) (dom : List String) :
    Option String → Except String (Option String)
  | none => .ok none
  | some s => if dom.contains s then .ok (some s) else .error (field ++ ": Invalid option")

/-- An optional non-negative integer budget field. -/
def parseBudget (field : String) : Option Int → Except String (Option Int)
  | none => .ok none
  | some n =>
      if 0 ≤ n then .ok (some n)
      else .error (field ++ ": Number must be greater than or equal to 0")

/-- status: enum with default New when absent. -/
def parseStatus : Option String → Except String String
  | none => .ok "New"
  | some s => if statusEnum.contains s then .ok s else .error "status: Invalid option"

/-- notes: optional string of at most 1000 characters. -/
def parseNotes : Option String → Except String (Option String)
  | none => .ok none
  | some s =>
      if notesOk s then .ok (some s)
      else .error "notes: Notes must be less than 1000 characters"

/-- tags: optional array of strings, defaulting to the empty array. -/
def parseTags : Option (List String) → Except String (List String)
  | none => .ok []
  | some ts => .ok ts

/-- Issue-accumulating applicative step: combines a partial parse with
one more field, collecting every field issue instead of stopping at the
first (zod reports all field issues of an object at once). -/
def accum {α β : Type} (r : Except (List String) (α → β)) (x : Except String α) :
    Except (List String) β :=
  match r, x with
  | .ok f, .ok a => .ok (f a)
  | .ok _, .error e => .error [e]
  | .error es, .ok _ => .error es
  | .error es, .error e => .error (es ++ [e])

/-- The base object parse of the buyer schema (field checks in shape
order, before the two cross-field refinements). -/
def buyerBase (c : Candidate) : Except (List String) Lead :=
  accum (accum (accum (accum (accum (accum (accum (accum (accum (accum (accum (accum (accum (accum
    (Except.ok Lead.mk)
    (parseFullName c.fullName))
    (parseEmail c.email))
    (parsePhone c.phone))
    (parseEnum "city" cityEnum c.city))
    (parseEnum "propertyType" propertyTypeEnum c.propertyType))
    (parseEnumOpt "bhk" bhkEnum c.bhk))
    (parseEnum "purpose" purposeEnum c.purpose))
    (parseBudget "budgetMin" c.budgetMin))
    (parseBudget "budgetMax" c.budgetMax))
    (parseEnum "timeline" timelineEnum c.timeline))
    (parseEnum "source" sourceEnum c.source))
    (parseStatus c.status))
    (parseNotes c.notes))
    (parseTags c.tags)

/-- First refinement of the buyer schema: fails when the property type
is Apartment or Villa and bhk is falsy. After the base parse bhk is
either absent or a non-empty enum value, so falsy means absent. -/
def bhkRefineOk (d : Lead) : Bool :=
  !((d.propertyType == "Apartment" || d.propertyType == "Villa") && d.bhk.isNone)

/-- JS truthiness of an optional number: undefined is falsy and so is
the number zero. -/
def numTruthy : Option Int → Bool
  | none => false
  | some n => n != 0

/-- Second refinement of the buyer schema, exactly as the source guards
it: the bound comparison runs only when both budget values are truthy,
so a present budget of zero disables the check. -/
def budgetRefineOk (d : Lead) : Bool :=
  if numTruthy d.budgetMin && numTruthy d.budgetMax then
    match d.budgetMin, d.budgetMax with
    | some m, some mx => decide (m ≤ mx)
    | _, _ => true
  else true

/-- Issue strings produced by the two refinements of the buyer schema,
in refinement order. -/
def refineIssues (d : Lead) : List String :=
  (if bhkRefineOk d then [] else ["bhk: BHK is required for Apartment and Villa property types"]) ++
  (if budgetRefineOk d then []
   else ["budgetMax: Budget max must be greater than or equal to budget min"])

/-- The full buyer schema: base object parse, then both refinements
(refinements run only on an object that parsed, and neither aborts the
other). -/
def buyerSchema (c : Candidate) : Except (List String) Lead :=
  match buyerBase c with
  | .error es => .error es
  | .ok d =>
      match refineIssues d with
      | [] => .ok d
      | es => .error es

-- CSV import surface -------------------------------------------------

/-- A numeric CSV cell after the import handler preprocessing: absent
(the cell was empty, so the ternary produced undefined), NaN (parseInt
could not read a number), or a parsed integer. -/
inductive NumField where
  | absent : NumField
  | nan : NumField
  | num : Int → NumField
deriving DecidableEq, Repr

/-- A raw CSV row as the csv parser delivers it: one string per column
of the documented import format, the empty string for an empty cell. We
model rows carrying all fourteen columns, which is the shape the export
endpoint produces and the README documents. -/
structure CsvRow where
  fullName : String
  email : String
  phone : String
  city : String
  propertyType : String
  bhk : String
  purpose : String
  budgetMin : String
  budgetMax : String
  timeline : String
  source : String
  notes : String
  tags : String
  status : String
deriving DecidableEq, Repr

/-- Digits to integer, for the parseInt model. -/
def digitsToInt (ds : List Char) : Int :=
  ds.foldl (fun acc c => acc * 10 + ((c.toNat - 48 : Nat) : Int)) 0

/-- Model of Number.parseInt on the strings this pipeline feeds it:
leading whitespace skipped, optional sign, then a leading run of
decimal digits; no digits gives NaN. (Radix prefixes such as 0x never
reach this call and are outside the model.) -/
def parseIntJS (s : String) : NumField :=
  let cs := s.toList.dropWhile Char.isWhitespace
  let signed : Int × List Char :=
    match cs with
    | c :: rest => if c == '-' then (-1, rest) else if c == '+' then (1, rest) else (1, cs)
    | [] => (1, [])
  let digits := signed.2.takeWhile Char.isDigit
  if digits.isEmpty then .nan else .num (signed.1 * digitsToInt digits)

/-- A CSV row after the import handler preprocessing (spread of the raw
row, budget cells sent through the empty-check ternary and parseInt,
tags defaulted to the empty string). -/
structure CsvProcessed where
  fullName : String
  email : String
  phone : String
  city : String
  propertyType : String
  bhk : String
  purpose : String
  budgetMin : NumField
  budgetMax : NumField
  timeline : String
  source : String
  status : String
  notes : String
  tags : String
deriving DecidableEq, Repr

/-- The per-row preprocessing of the import handler: a non-empty budget
cell is truthy and goes through parseInt, an empty one becomes absent;
tags keeps the cell text (the or-default only replaces a missing
value, and an empty cell is already the empty string). -/
def processRow (r : CsvRow) : CsvProcessed :=
  { fullName := r.fullName
    email := r.email
    phone := r.phone
    city := r.city
    propertyType := r.propertyType
    bhk := r.bhk
    purpose := r.purpose
    budgetMin := if r.budgetMin == "" then .absent else parseIntJS r.budgetMin
    budgetMax := if r.budgetMax == "" then .absent else parseIntJS r.budgetMax
    timeline := r.timeline
    source := r.source
    status := r.status
    notes := r.notes
    tags := r.tags }

/-- JS String.prototype.trim on our character model. -/
def trimJS (s : String) : String :=
  ⟨((s.toList.dropWhile Char.isWhitespace).reverse.dropWhile Char.isWhitespace).reverse⟩

/-- Split a character list at commas (model of String.prototype.split
with separator comma): accumulates the current piece reversed. -/
def splitCommaAux : List Char → List Char → List (List Char)
  | [], acc => [acc.reverse]
  | c :: cs, acc =>
      if c == ',' then acc.reverse :: splitCommaAux cs []
      else splitCommaAux cs (c :: acc)

/-- Split a string at commas, keeping empty pieces, as JS split does. -/
def splitComma (s : String) : List String :=
  (splitCommaAux s.toList []).map (fun cs => ⟨cs⟩)

/-- The tags transform of the CSV row schema: a falsy (empty) string
gives the empty list, otherwise split at commas, trim each piece, drop
empty pieces, order preserved. -/
def tagsTransform (s : String) : List String :=
  if s == "" then []
  else ((splitComma s).map trimJS).filter (fun t => 0 < t.length)

/-- Budget parse for the CSV variant, where the value may be NaN. -/
def parseBudgetCsv (field : String) : NumField → Except String (Option Int)
  | .absent => .ok none
  | .nan => .error (field ++ ": Expected number, received nan")
  | .num n =>
      if 0 ≤ n then .ok (some n)
      else .error (field ++ ": Number must be greater than or equal to 0")

/-- The base object parse of the CSV row schema: the buyer schema
fields with tags replaced by the comma-string transform. Every column
is present as a string, so optional fields receive a present (possibly
empty) value. -/
def csvRowBase (p : CsvProcessed) : Except (List String) Lead :=
  accum (accum (accum (accum (accum (accum (accum (accum (accum (accum (accum (accum (accum (accum
    (Except.ok Lead.mk)
    (parseFullName (some p.fullName)))
    (parseEmail (some p.email)))
    (parsePhone (some p.phone)))
    (parseEnum "city" cityEnum (some p.city)))
    (parseEnum "propertyType" propertyTypeEnum (some p.propertyType)))
    (parseEnumOpt "bhk" bhkEnum (some p.bhk)))
    (parseEnum "purpose" purposeEnum (some p.purpose)))
    (parseBudgetCsv "budgetMin" p.budgetMin))
    (parseBudgetCsv "budgetMax" p.budgetMax))
    (parseEnum "timeline" timelineEnum (some p.timeline)))
    (parseEnum "source" sourceEnum (some p.source)))
    (parseStatus (some p.status)))
    (parseNotes (some p.notes)))
    (Except.ok (tagsTransform p.tags))

/-- The CSV row schema: the base parse followed by the two cross-field
refinements (safeExtend keeps them). -/
def csvRowSchema (p : CsvProcessed) : Except (List String) Lead :=
  match csvRowBase p with
  | .error es => .error es
  | .ok d =>
      match refineIssues d with
      | [] => .ok d
      | es => .error es

-- Update (partial) schema --------------------------------------------

/-- A datetime string together with the instant it denotes; the JS
expression new Date(s).getTime() is the epochMs field. Values of this
type stand for strings the zod datetime() check accepts. -/
structure TimeStr where
  repr : String
  epochMs : Int
deriving DecidableEq, Repr

/-- The request body of an update: a candidate whose keys are all
optional, plus the optional concurrency token. -/
structure UpdateCandidate extends Candidate where
  updatedAt : Option TimeStr := none
deriving DecidableEq, Repr

/-- Validated update payload: every buyer field optional (absent keys
stay absent; in the partial schema no default fills them in), plus the
optional concurrency token. -/
structure UpdatePayload where
  fullName : Option String := none
  email : Option String := none
  phone : Option String := none
  city : Option String := none
  propertyType : Option String := none
  bhk : Option String := none
  purpose : Option String := none
  budgetMin : Option Int := none
  budgetMax : Option Int := none
  timeline : Option String := none
  source : Option String := none
  status : Option String := none
  notes : Option String := none
  tags : Option (List String) := none
  updatedAt : Option TimeStr := none
deriving DecidableEq, Repr

/-- Lift a required-field parser to the partial schema: an absent key
passes untouched, a present value goes through the field check. -/
def optField {α β : Type} (f : Option α → Except String β) :
    Option α → Except String (Option β)
  | none => .ok none
  | some v => (f (some v)).map some

/-- The update schema. It is the buyer schema made partial and then
safe-extended with the optional updatedAt token. In zod 4 the partial
transform rebuilds the object shape and drops object-level refine
checks, so this schema carries the per-field checks only: neither the
bhk refinement nor the budget refinement runs here (the safeExtend step
preserves exactly the checks the partial schema still has, which are
none). -/
def updateBuyerSchema (c : UpdateCandidate) : Except (List String) UpdatePayload :=
  accum (accum (accum (accum (accum (accum (accum (accum (accum (accum (accum (accum (accum (accum (accum
    (Except.ok UpdatePayload.mk)
    (optField parseFullName c.fullName))
    (parseEmail c.email))
    (optField parsePhone c.phone))
    (optField (parseEnum "city" cityEnum) c.city))
    (optField (parseEnum "propertyType" propertyTypeEnum) c.propertyType))
    (parseEnumOpt "bhk" bhkEnum c.bhk))
    (optField (parseEnum "purpose" purposeEnum) c.purpose))
    (parseBudget "budgetMin" c.budgetMin))
    (parseBudget "budgetMax" c.budgetMax))
    (optField (parseEnum "timeline" timelineEnum) c.timeline))
    (optField (parseEnum "source" sourceEnum) c.source))
    (optField parseStatus c.status))
    (parseNotes c.notes))
    (Except.ok c.tags))
    (Except.ok c.updatedAt)

-- Store model ---------------------------------------------------------

/-- A buyer row as stored (UUIDs modelled as Nat identifiers, the two
timestamp columns by the instants they denote). Nullable columns are
Options. -/
structure StoredBuyer where
  id : Nat
  fullName : String
  email : Option String
  phone : String
  city : String
  propertyType : String
  bhk : Option String
  purpose : String
  budgetMin : Option Int
  budgetMax : Option Int
  timeline : String
  source : String
  status : String
  notes : Option String
  tags : List String
  ownerId : Nat
  createdAt : Int
  updatedAt : Int
deriving DecidableEq, Repr

/-- The fourteen mutable buyer fields, the keys of the fieldMapping
table of the update handler. -/
inductive BuyerField where
  | fullName | email | phone | city | propertyType | bhk | purpose
  | budgetMin | budgetMax | timeline | source | status | notes | tags
deriving DecidableEq, Repr

/-- The fields in the order the validated payload enumerates them
(schema shape order). -/
def fieldOrder : List BuyerField :=
  [.fullName, .email, .phone, .city, .propertyType, .bhk, .purpose,
   .budgetMin, .budgetMax, .timeline, .source, .status, .notes, .tags]

/-- A from/to pair of one audit diff entry. -/
structure FieldChange where
  fromVal : JVal
  toVal : JVal
deriving DecidableEq, Repr

/-- The diff column of one history row. -/
inductive DiffPayload where
  | created (data : Lead)
  | updated (changes : List (BuyerField × FieldChange))
  | imported (data : Lead)
deriving DecidableEq, Repr

/-- One buyer_history row (insertion timestamp not modelled; rows are
append-only in insertion order). -/
structure HistoryEntry where
  buyerId : Nat
  changedBy : Nat
  diff : DiffPayload
deriving DecidableEq, Repr

/-- The relevant store state: the buyers table and the history table. -/
structure Store where
  buyers : List StoredBuyer
  history : List HistoryEntry
deriving DecidableEq, Repr

/-- The acting authenticated user of a request. -/
structure ReqUser where
  id : Nat
  role : String
deriving DecidableEq, Repr

/-- Ownership check of the buyers routes: admins may touch any record,
others only their own. -/
def checkOwnership (u : ReqUser) (buyerOwnerId : Nat) : Bool :=
  u.role == "admin" || u.id == buyerOwnerId

/-- Append one history row. -/
def recordHistory (st : Store) (buyerId changedBy : Nat) (diff : DiffPayload) : Store :=
  { st with history := st.history ++ [⟨buyerId, changedBy, diff⟩] }

-- Update handler ------------------------------------------------------

/-- A nullable string column as a JS value. -/
def optStrJ : Option String → JVal
  | none => .null
  | some s => .str s

/-- A nullable integer column as a JS value. -/
def optIntJ : Option Int → JVal
  | none => .null
  | some n => .int n

/-- The stored value of a field as the JS value the handler reads from
the current row. -/
def storedJ (b : StoredBuyer) : BuyerField → JVal
  | .fullName => .str b.fullName
  | .email => optStrJ b.email
  | .phone => .str b.phone
  | .city => .str b.city
  | .propertyType => .str b.propertyType
  | .bhk => optStrJ b.bhk
  | .purpose => .str b.purpose
  | .budgetMin => optIntJ b.budgetMin
  | .budgetMax => optIntJ b.budgetMax
  | .timeline => .str b.timeline
  | .source => .str b.source
  | .status => .str b.status
  | .notes => optStrJ b.notes
  | .tags => .arr b.tags

/-- The raw payload value of a field, when the key is present in the
validated body (the updatedAt token is not a mapped field). -/
def payloadJ (p : UpdatePayload) : BuyerField → Option JVal
  | .fullName => p.fullName.map .str
  | .email => p.email.map .str
  | .phone => p.phone.map .str
  | .city => p.city.map .str
  | .propertyType => p.propertyType.map .str
  | .bhk => p.bhk.map .str
  | .purpose => p.purpose.map .str
  | .budgetMin => p.budgetMin.map .int
  | .budgetMax => p.budgetMax.map .int
  | .timeline => p.timeline.map .str
  | .source => p.source.map .str
  | .status => p.status.map .str
  | .notes => p.notes.map .str
  | .tags => p.tags.map .arr

/-- The fields the payload supplies, in enumeration order: these are
the columns pushed onto the update statement. -/
def suppliedFields (p : UpdatePayload) : List BuyerField :=
  fieldOrder.filter (fun f => (payloadJ p f).isSome)

/-- The change-tracking loop of the update handler: one entry per
supplied field whose raw payload value is JS-strictly unequal to the
stored value, carrying the raw from/to pair (no normalization). -/
def computeChanges (cur : StoredBuyer) (p : UpdatePayload) :
    List (BuyerField × FieldChange) :=
  fieldOrder.filterMap (fun f =>
    match payloadJ p f with
    | none => none
    | some v =>
        if jsStrictNe (storedJ cur f) v then some (f, ⟨storedJ cur f, v⟩) else none)

/-- The single UPDATE statement: every supplied field is written with
the empty string normalized to null (only email and notes can validly
be empty strings; the other validated string fields are never empty, so
the normalization is spelled out where it can fire), and updated_at is
refreshed to the current timestamp unconditionally. -/
def applyUpdate (cur : StoredBuyer) (p : UpdatePayload) (now : Int) : StoredBuyer :=
  { cur with
    fullName := p.fullName.getD cur.fullName
    email :=
      match p.email with
      | some v => if v == "" then none else some v
      | none => cur.email
    phone := p.phone.getD cur.phone
    city := p.city.getD cur.city
    propertyType := p.propertyType.getD cur.propertyType
    bhk :=
      match p.bhk with
      | some v => some v
      | none => cur.bhk
    purpose := p.purpose.getD cur.purpose
    budgetMin :=
      match p.budgetMin with
      | some v => some v
      | none => cur.budgetMin
    budgetMax :=
      match p.budgetMax with
      | some v => some v
      | none => cur.budgetMax
    timeline := p.timeline.getD cur.timeline
    source := p.source.getD cur.source
    status := p.status.getD cur.status
    notes :=
      match p.notes with
      | some v => if v == "" then none else some v
      | none => cur.notes
    tags := p.tags.getD cur.tags
    updatedAt := now }

/-- The possible responses of the update route. -/
inductive UpdateOutcome where
  | validationFailed (errors : List String)
  | notFound
  | forbidden
  | conflict (currentUpdatedAt : Int)
  | badRequest
  | ok (buyer : StoredBuyer)
deriving DecidableEq, Repr

/-- The tail of the update handler after the guard checks: reject when
no mapped field was supplied, otherwise write the row, then append an
updated history entry only when the tracked change set is non-empty. -/
def performUpdate (now : Int) (u : ReqUser) (cur : StoredBuyer) (p : UpdatePayload)
    (st : Store) : UpdateOutcome × Store :=
  if (suppliedFields p).isEmpty then (.badRequest, st)
  else
    let changes := computeChanges cur p
    let nb := applyUpdate cur p now
    let st1 : Store :=
      { st with buyers := st.buyers.map (fun b => if b.id == cur.id then nb else b) }
    let st2 := if changes.isEmpty then st1 else recordHistory st1 cur.id u.id (.updated changes)
    (.ok nb, st2)

/-- The PUT /:id handler: validate the body, read the current row,
check ownership, check the optional concurrency token by comparing the
denoted instants, then perform the write. Every non-ok branch returns
before any write. -/
def updateBuyer (now : Int) (u : ReqUser) (id : Nat) (body : UpdateCandidate)
    (st : Store) : UpdateOutcome × Store :=
  match updateBuyerSchema body with
  | .error es => (.validationFailed es, st)
  | .ok p =>
      match st.buyers.find? (fun b => b.id == id) with
      | none => (.notFound, st)
      | some cur =>
          if !checkOwnership u cur.ownerId then (.forbidden, st)
          else
            match p.updatedAt with
            | some t =>
                if t.epochMs != cur.updatedAt then (.conflict cur.updatedAt, st)
                else performUpdate now u cur p st
            | none => performUpdate now u cur p st

-- Create / import insert mapping --------------------------------------

/-- The INSERT parameter mapping shared by the create and import
handlers: falsy optional values become null, so an empty-string email
or notes value and a zero budget value are stored as null; a validated
status is never empty, and an empty tags array is truthy and kept. -/
def insertBuyer (ownerId : Nat) (id : Nat) (now : Int) (d : Lead) : StoredBuyer :=
  { id := id
    fullName := d.fullName
    email :=
      match d.email with
      | some e => if e == "" then none else some e
      | none => none
    phone := d.phone
    city := d.city
    propertyType := d.propertyType
    bhk := d.bhk
    purpose := d.purpose
    budgetMin :=
      match d.budgetMin with
      | some n => if n == 0 then none else some n
      | none => none
    budgetMax :=
      match d.budgetMax with
      | some n => if n == 0 then none else some n
      | none => none
    timeline := d.timeline
    source := d.source
    status := d.status
    notes :=
      match d.notes with
      | some s => if s == "" then none else some s
      | none => none
    tags := d.tags
    ownerId := ownerId
    createdAt := now
    updatedAt := now }

-- Bulk import handler -------------------------------------------------

/-- The possible responses of the import route (file-shape rejections
before row processing are kept abstract as the two cap branches). -/
inductive ImportOutcome where
  | emptyFile
  | tooManyRows
  | validationFailed (errors : List (Nat × List String)) (validRowsCount totalRowsCount : Nat)
  | success (imported : List StoredBuyer)
deriving DecidableEq, Repr

/-- The error-accumulating row loop: the entry for a failing row is
keyed by its one-based position, and the loop continues past failures
over every row. -/
def collectRowErrors (rows : List CsvRow) (idx : Nat) : List (Nat × List String) :=
  match rows with
  | [] => []
  | r :: rs =>
      match csvRowSchema (processRow r) with
      | .error es => (idx + 1, es) :: collectRowErrors rs (idx + 1)
      | .ok _ => collectRowErrors rs (idx + 1)

/-- The valid rows the same loop pushes, in order. -/
def collectValidRows (rows : List CsvRow) : List Lead :=
  rows.filterMap (fun r => (csvRowSchema (processRow r)).toOption)

/-- The transactional insert loop: each valid row is inserted and
followed by its imported history entry; identifiers are assigned
consecutively from nextId. -/
def insertAllRows (u : ReqUser) (leads : List Lead) (nextId : Nat) (now : Int)
    (st : Store) : List StoredBuyer × Store :=
  match leads with
  | [] => ([], st)
  | d :: ds =>
      let nb := insertBuyer u.id nextId now d
      let st1 := recordHistory { st with buyers := st.buyers ++ [nb] } nb.id u.id (.imported d)
      let res := insertAllRows u ds (nextId + 1) now st1
      (nb :: res.1, res.2)

/-- The POST /import handler on parsed rows: cap checks, one validation
pass accumulating errors and valid rows, full rejection carrying the
error list and both counts when any row failed, and the transactional
insert of every row otherwise. -/
def importBuyers (u : ReqUser) (rows : List CsvRow) (nextId : Nat) (now : Int)
    (st : Store) : ImportOutcome × Store :=
  if rows.length == 0 then (.emptyFile, st)
  else if 200 < rows.length then (.tooManyRows, st)
  else
    let errors := collectRowErrors rows 0
    let validRows := collectValidRows rows
    if !errors.isEmpty then (.validationFailed errors validRows.length rows.length, st)
    else
      let res := insertAllRows u validRows nextId now st
      (.success res.1, res.2)

-- Export row mapping --------------------------------------------------

/-- Join a list of tags with commas (model of array_to_string with the
comma separator, and of the join the CSV writer performs on nothing
else, since tags is the only array column). -/
def joinComma : List String → String
  | [] => ""
  | [t] => t
  | t :: rest => t ++ "," ++ joinComma rest

/-- The decimal digit characters. -/
def digitChar : Nat → Char
  | 0 => '0' | 1 => '1' | 2 => '2' | 3 => '3' | 4 => '4'
  | 5 => '5' | 6 => '6' | 7 => '7' | 8 => '8' | _ => '9'

/-- Decimal digits of a natural number, most significant first, in
front of an accumulator. -/
def natToDigitsAux (n : Nat) (acc : List Char) : List Char :=
  if n < 10 then digitChar n :: acc
  else natToDigitsAux (n / 10) (digitChar (n % 10) :: acc)
termination_by n
decreasing_by exact Nat.div_lt_self (by omega) (by omega)

/-- Decimal rendering of an integer cell value (stored budgets are
non-negative; the sign case keeps the function total). -/
def intToDecimal (n : Int) : String :=
  if n < 0 then "-" ++ ⟨natToDigitsAux (-n).toNat []⟩ else ⟨natToDigitsAux n.toNat []⟩

/-- The export SELECT row mapping of one stored buyer: nullable columns
print as empty cells, budgets in decimal, tags joined with commas. -/
def exportRow (b : StoredBuyer) : CsvRow :=
  { fullName := b.fullName
    email := b.email.getD ""
    phone := b.phone
    city := b.city
    propertyType := b.propertyType
    bhk := b.bhk.getD ""
    purpose := b.purpose
    budgetMin :=
      match b.budgetMin with
      | none => ""
      | some n => intToDecimal n
    budgetMax :=
      match b.budgetMax with
      | none => ""
      | some n => intToDecimal n
    timeline := b.timeline
    source := b.source
    status := b.status
    notes := b.notes.getD ""
    tags := joinComma b.tags }

-- Filter schema and list query translation ----------------------------

/-- Raw query parameters of the list and export routes; none marks a
parameter that is absent from the query string. -/
structure FilterQuery where
  city : Option String := none
  propertyType : Option String := none
  status : Option String := none
  timeline : Option String := none
  search : Option String := none
  page : Option String := none
  limit : Option String := none
  sortBy : Option String := none
  sortOrder : Option String := none
deriving DecidableEq, Repr

/-- A page or limit value after the union parse: a number, or the
empty-string literal the union admits. -/
inductive NumOrEmpty where
  | num (n : Int)
  | empty
deriving DecidableEq, Repr

/-- The validated filter object. -/
structure Filters where
  city : Option String
  propertyType : Option String
  status : Option String
  timeline : Option String
  search : Option String
  page : NumOrEmpty
  limit : NumOrEmpty
  sortBy : String
  sortOrder : String
deriving DecidableEq, Repr

/-- Model of the JS Number coercion restricted to integer results:
whitespace-trimmed empty input is zero, an optionally signed digit run
is its value, anything else (non-numeric or non-integer) is none and
fails the integer check either way. -/
def jsNumberInt (s : String) : Option Int :=
  let cs := (s.toList.dropWhile Char.isWhitespace).reverse.dropWhile Char.isWhitespace |>.reverse
  match cs with
  | [] => some 0
  | c :: rest =>
      let signed : Int × List Char :=
        if c == '-' then (-1, rest) else if c == '+' then (1, rest) else (1, cs)
      if !signed.2.isEmpty && signed.2.all Char.isDigit then
        some (signed.1 * digitsToInt signed.2)
      else none

/-- An enum filter of the list routes: absent passes, the empty-string
literal passes, an enum value passes, anything else is a parse error. -/
def parseFilterEnum (field : String) (dom : List String) :
    Option String → Except String (Option String)
  | none => .ok none
  | some s =>
      if dom.contains s then .ok (some s)
      else if s == "" then .ok (some "")
      else .error (field ++ ": Invalid option")

/-- page: coerced integer at least 1, or the empty-string literal, with
default 1 when absent. -/
def parsePage : Option String → Except String NumOrEmpty
  | none => .ok (.num 1)
  | some s =>
      match jsNumberInt s with
      | some n =>
          if 1 ≤ n then .ok (.num n)
          else if s == "" then .ok .empty
          else .error "page: Invalid input"
      | none => if s == "" then .ok .empty else .error "page: Invalid input"

/-- limit: coerced integer in 1 to 100, or the empty-string literal,
with default 10 when absent. -/
def parseLimit : Option String → Except String NumOrEmpty
  | none => .ok (.num 10)
  | some s =>
      match jsNumberInt s with
      | some n =>
          if 1 ≤ n && n ≤ 100 then .ok (.num n)
          else if s == "" then .ok .empty
          else .error "limit: Invalid input"
      | none => if s == "" then .ok .empty else .error "limit: Invalid input"

/-- sortBy: one of the three sort keys, or the empty-string literal;
only an absent value takes the default. Any other value is a parse
error that the route surfaces as a generic failure. -/
def parseSortBy : Option String → Except String String
  | none => .ok "updatedAt"
  | some s =>
      if ["updatedAt", "fullName", "createdAt"].contains s then .ok s
      else if s == "" then .ok ""
      else .error "sortBy: Invalid option"

/-- sortOrder: asc or desc, or the empty-string literal, default desc
when absent. -/
def parseSortOrder : Option String → Except String String
  | none => .ok "desc"
  | some s =>
      if ["asc", "desc"].contains s then .ok s
      else if s == "" then .ok ""
      else .error "sortOrder: Invalid option"

/-- The query filter schema. -/
def filtersSchema (q : FilterQuery) : Except (List String) Filters :=
  accum (accum (accum (accum (accum (accum (accum (accum (accum
    (Except.ok Filters.mk)
    (parseFilterEnum "city" cityEnum q.city))
    (parseFilterEnum "propertyType" propertyTypeEnum q.propertyType))
    (parseFilterEnum "status" statusEnum q.status))
    (parseFilterEnum "timeline" timelineEnum q.timeline))
    (Except.ok q.search))
    (parsePage q.page))
    (parseLimit q.limit))
    (parseSortBy q.sortBy))
    (parseSortOrder q.sortOrder)

/-- The allow-list lookup of the list and export handlers: the three
sort keys map to their columns; any other key (the empty string is the
only one the schema lets through) looks up undefined. -/
def validSortColumns (s : String) : Option String :=
  if s == "updatedAt" then some "b.updated_at"
  else if s == "fullName" then some "b.full_name"
  else if s == "createdAt" then some "b.created_at"
  else none

/-- Uppercase a string character by character (model of the JS
toUpperCase call applied to the sort direction). -/
def toUpperJS (s : String) : String :=
  ⟨s.toList.map Char.toUpper⟩

/-- JS numeric coercion of a page or limit slot inside the offset
arithmetic: the empty string coerces to zero. -/
def numCoerce : NumOrEmpty → Int
  | .num n => n
  | .empty => 0

/-- What the list route does with a query, as far as sorting and
pagination shape are concerned. -/
inductive ListOutcome where
  | serverError
  | ok (sortColumn : String) (sortDir : String) (limit : Int) (offset : Int)
deriving DecidableEq, Repr

/-- The GET / list handler on its sort/pagination path: a schema parse
failure is caught and surfaced as a generic failure; an undefined sort
column makes the store reject the statement (the interpolated text
names a nonexistent column); an empty-string limit parameter and a
negative offset are likewise rejected by the store. -/
def listBuyers (q : FilterQuery) : ListOutcome :=
  match filtersSchema q with
  | .error _ => .serverError
  | .ok f =>
      match validSortColumns f.sortBy with
      | none => .serverError
      | some col =>
          let offset := (numCoerce f.page - 1) * numCoerce f.limit
          if f.limit == .empty then .serverError
          else if offset < 0 then .serverError
          else .ok col (toUpperJS f.sortOrder) (numCoerce f.limit) offset

-- Derived helpers and predicates used by the claim statements ---------

/-- Validation result of one raw CSV row through the import pipeline. -/
def rowResult (r : CsvRow) : Except (List String) Lead :=
  csvRowSchema (processRow r)

/-- Whether one raw CSV row validates. -/
def rowValid (r : CsvRow) : Bool :=
  (rowResult r).isOk

/-- The issue list of one raw CSV row (empty when the row is valid). -/
def rowIssues (r : CsvRow) : List String :=
  match rowResult r with
  | .error es => es
  | .ok _ => []

/-- An all-empty CSV row, used as a getD fallback in statements about
row positions. -/
def blankRow : CsvRow :=
  ⟨"", "", "", "", "", "", "", "", "", "", "", "", "", ""⟩

/-- Conjunction of the fifteen per-field checks of the update schema,
stated apart from the schema so that skipping of the cross-field
refinements is expressible: the update schema succeeds exactly on these
checks. -/
def updateFieldsOk (c : UpdateCandidate) : Bool :=
  (optField parseFullName c.fullName).isOk &&
  (parseEmail c.email).isOk &&
  (optField parsePhone c.phone).isOk &&
  (optField (parseEnum "city" cityEnum) c.city).isOk &&
  (optField (parseEnum "propertyType" propertyTypeEnum) c.propertyType).isOk &&
  (parseEnumOpt "bhk" bhkEnum c.bhk).isOk &&
  (optField (parseEnum "purpose" purposeEnum) c.purpose).isOk &&
  (parseBudget "budgetMin" c.budgetMin).isOk &&
  (parseBudget "budgetMax" c.budgetMax).isOk &&
  (optField (parseEnum "timeline" timelineEnum) c.timeline).isOk &&
  (optField (parseEnum "source" sourceEnum) c.source).isOk &&
  (optField parseStatus c.status).isOk &&
  (parseNotes c.notes).isOk

/-- Whether the concurrency gate of the update handler lets a payload
through against a current row: no token, or a token denoting exactly
the current instant. -/
def tokenMatches (p : UpdatePayload) (cur : StoredBuyer) : Bool :=
  match p.updatedAt with
  | none => true
  | some t => t.epochMs == cur.updatedAt

/-- A payload that is a no-op with respect to a current row in the
sense the change-tracking loop can detect: every supplied field is a
scalar carrying exactly the stored value (and in particular not an
empty string, so the write-back normalization is the identity), and
tags is not supplied (a supplied tags array always counts as changed,
being compared by reference). -/
def noopPayload (cur : StoredBuyer) (p : UpdatePayload) : Bool :=
  (p.fullName == none || p.fullName == some cur.fullName) &&
  (p.email == none || (p.email != some "" && p.email == cur.email)) &&
  (p.phone == none || p.phone == some cur.phone) &&
  (p.city == none || p.city == some cur.city) &&
  (p.propertyType == none || p.propertyType == some cur.propertyType) &&
  (p.bhk == none || p.bhk == cur.bhk) &&
  (p.purpose == none || p.purpose == some cur.purpose) &&
  (p.budgetMin == none || p.budgetMin == cur.budgetMin) &&
  (p.budgetMax == none || p.budgetMax == cur.budgetMax) &&
  (p.timeline == none || p.timeline == some cur.timeline) &&
  (p.source == none || p.source == some cur.source) &&
  (p.status == none || p.status == some cur.status) &&
  (p.notes == none || (p.notes != some "" && p.notes == cur.notes)) &&
  p.tags == none

/-- A tag that survives the export join and import split untouched:
non-empty, comma-free and trim-stable. -/
def cleanTag (t : String) : Bool :=
  t != "" && t.toList.all (fun c => c != ',') && trimJS t == t

/-- A stored buyer whose exported row re-validates and reproduces the
same domain fields: field values within the schema domains, a present
bhk (an absent bhk exports as an empty cell, which the optional enum
rejects on re-import), strictly positive budgets respecting the bound
order (a zero budget is dropped to null by the insert mapping), no
empty-string email or notes, and clean tags. -/
def roundTrippable (b : StoredBuyer) : Bool :=
  fullNameOk b.fullName &&
  (match b.email with | none => true | some e => e != "" && isEmail e) &&
  phoneOk b.phone &&
  cityEnum.contains b.city &&
  propertyTypeEnum.contains b.propertyType &&
  (match b.bhk with | some s => bhkEnum.contains s | none => false) &&
  purposeEnum.contains b.purpose &&
  (match b.budgetMin with | none => true | some n => 0 < n) &&
  (match b.budgetMax with | none => true | some n => 0 < n) &&
  (match b.budgetMin, b.budgetMax with | some m, some mx => m ≤ mx | _, _ => true) &&
  timelineEnum.contains b.timeline &&
  sourceEnum.contains b.source &&
  statusEnum.contains b.status &&
  (match b.notes with | none => true | some s => s != "" && notesOk s) &&
  b.tags.all cleanTag

/-- The parsed lead the exported row of a stored buyer validates to
(a null email or notes column exports as an empty cell, which the
schema keeps as a present empty string). -/
def leadOf (b : StoredBuyer) : Lead :=
  { fullName := b.fullName
    email := some (b.email.getD "")
    phone := b.phone
    city := b.city
    propertyType := b.propertyType
    bhk := b.bhk
    purpose := b.purpose
    budgetMin := b.budgetMin
    budgetMax := b.budgetMax
    timeline := b.timeline
    source := b.source
    status := b.status
    notes := some (b.notes.getD "")
    tags := b.tags }

/-- Equality of two stored buyers on the fourteen domain fields
(identity, ownership and timestamps excluded). -/
def domainEq (a b : StoredBuyer) : Bool :=
  a.fullName == b.fullName && a.email == b.email && a.phone == b.phone &&
  a.city == b.city && a.propertyType == b.propertyType && a.bhk == b.bhk &&
  a.purpose == b.purpose && a.budgetMin == b.budgetMin && a.budgetMax == b.budgetMax &&
  a.timeline == b.timeline && a.source == b.source && a.status == b.status &&
  a.notes == b.notes && a.tags == b.tags

-- Concrete objects used by counterexamples and witnesses --------------

/-- A non-admin demo user. -/
def demoUser : ReqUser := { id := 7, role := "user" }

/-- A stored buyer owned by the demo user (a Plot lead, so bhk is
null, as the database constraint allows for that property type). -/
def demoBuyer : StoredBuyer :=
  { id := 1, fullName := "John Doe", email := none, phone := "9876543210",
    city := "Chandigarh", propertyType := "Plot", bhk := none, purpose := "Buy",
    budgetMin := some 5000000, budgetMax := some 7000000, timeline := "0-3m",
    source := "Website", status := "New", notes := none, tags := ["urgent", "family"],
    ownerId := 7, createdAt := 1000, updatedAt := 1000 }

/-- A store holding the demo buyer and no history. -/
def demoStore : Store := { buyers := [demoBuyer], history := [] }

/-- An otherwise valid create candidate carrying budgetMin 5 and
budgetMax 0: both bounds present and the maximum below the minimum. -/
def budgetBugCand : Candidate :=
  { fullName := some "John Doe", phone := some "9876543210", city := some "Chandigarh",
    propertyType := some "Plot", purpose := some "Buy", timeline := some "0-3m",
    source := some "Website", budgetMin := some 5, budgetMax := some 0 }

/-- An update body supplying the property type Apartment and no bhk. -/
def aptNoBhkBody : UpdateCandidate :=
  { propertyType := some "Apartment" }

/-- An update body whose only supplied field repeats the stored status
of the demo buyer. -/
def noopBody : UpdateCandidate :=
  { status := some "New" }

/-- An update body supplying an empty-string email against the demo
buyer, whose stored email is null. -/
def emailClearBody : UpdateCandidate :=
  { email := some "", status := some "New" }

/-- The validated payload of emailClearBody. -/
def emailClearPayload : UpdatePayload :=
  { email := some "", status := some "New" }

/-- A list query requesting an unrecognized sort key. -/
def badSortQuery : FilterQuery := { sortBy := some "oldest" }

/-- A list query requesting the empty-string sort key. -/
def emptySortQuery : FilterQuery := { sortBy := some "" }

/-- A list query naming an allow-listed sort key. -/
def fullNameSortQuery : FilterQuery := { sortBy := some "fullName", sortOrder := some "asc" }

/-- The demo buyer with a bedroom-count class, which makes its export
row re-importable. -/
def demoBuyerBhk : StoredBuyer := { demoBuyer with bhk := some "3" }

/-- The demo buyer with no budget bounds (its export row holds empty
budget cells). -/
def plotNoBudgetBuyer : StoredBuyer :=
  { demoBuyer with budgetMin := none, budgetMax := none }

/-- A budget-free buyer with a bedroom-count class and a single tag
that contains a comma. -/
def commaTagBuyer : StoredBuyer :=
  { plotNoBudgetBuyer with bhk := some "3", tags := ["a,b"] }

-- General lemmas ------------------------------------------------------

theorem accum_isOk {α β : Type} (r : Except (List String) (α → β)) (x : Except String α) :
    (accum r x).isOk = (r.isOk && x.isOk) := by
  cases r <;> cases x <;> rfl

theorem accum_ok_iff {α β : Type} {r : Except (List String) (α → β)} {x : Except String α}
    {b : β} : accum r x = .ok b ↔ ∃ g a, r = .ok g ∧ x = .ok a ∧ g a = b := by
  cases r <;> cases x <;> simp [accum]

theorem performUpdate_cases (now : Int) (u : ReqUser) (cur : StoredBuyer)
    (p : UpdatePayload) (st : Store) :
    performUpdate now u cur p st = (.badRequest, st) ∨
      ∃ st2, performUpdate now u cur p st = (.ok (applyUpdate cur p now), st2) := by
  by_cases hs : (suppliedFields p).isEmpty
  · left; simp [performUpdate, hs]
  · right
    simp only [performUpdate, hs]
    exact ⟨_, rfl⟩

theorem performUpdate_ne_conflict (now : Int) (u : ReqUser) (cur : StoredBuyer)
    (p : UpdatePayload) (st : Store) (c : Int) :
    (performUpdate now u cur p st).1 ≠ .conflict c := by
  rcases performUpdate_cases now u cur p st with h | ⟨st2, h⟩ <;> simp [h]

theorem mem_fieldOrder (f : BuyerField) : f ∈ fieldOrder := by
  cases f <;> simp [fieldOrder]

-- C3 -------------------------------------------------------------------

/-- C3: the claim says that whenever both budget bounds are present and
budgetMax < budgetMin, full-record validation fails. The code diverges:
with budgetMin 5 and budgetMax 0 both present and 0 < 5, validation
passes, because the refinement guards on JS truthiness and the number
zero is falsy. (The database migration states the presence-based rule
as the budget_check constraint, which this validation fails to
enforce.) This theorem evaluates the embedded schema at that failing
input. -/
theorem c3_budget_rule_skipped_at_zero :
    budgetBugCand.budgetMin = some 5 ∧ budgetBugCand.budgetMax = some 0 ∧
    (buyerSchema budgetBugCand).isOk = true :=
  ⟨rfl, rfl, rfl⟩

-- C4 -------------------------------------------------------------------

theorem updateBuyerSchema_isOk_eq (c : UpdateCandidate) :
    (updateBuyerSchema c).isOk = updateFieldsOk c := by
  unfold updateBuyerSchema updateFieldsOk
  rw [accum_isOk, accum_isOk, accum_isOk, accum_isOk, accum_isOk, accum_isOk, accum_isOk,
    accum_isOk, accum_isOk, accum_isOk, accum_isOk, accum_isOk, accum_isOk, accum_isOk,
    accum_isOk]
  simp [Except.isOk, Except.toBool, Bool.and_assoc]

/-- C4: in the partial (update) variant of the schema the cross-field
refinements never fire: whenever a participating field of a refinement
is absent from the candidate (property type or bedroom count for the
first, either budget bound for the second), validation succeeds exactly
on the per-field checks; in particular the payload supplying the
property type Apartment with no bhk passes. -/
theorem c4_refinements_skipped_on_absence :
    (∀ c : UpdateCandidate, c.propertyType = none ∨ c.bhk = none →
        updateFieldsOk c = true → (updateBuyerSchema c).isOk = true) ∧
    (∀ c : UpdateCandidate, c.budgetMin = none ∨ c.budgetMax = none →
        updateFieldsOk c = true → (updateBuyerSchema c).isOk = true) ∧
    updateBuyerSchema aptNoBhkBody = .ok { propertyType := some "Apartment" } := by
  refine ⟨?_, ?_, rfl⟩ <;> intro c _ h <;> rw [updateBuyerSchema_isOk_eq] <;> exact h

/-- Witness for C4: a concrete candidate with an absent bedroom count
accepted by the update schema. -/
theorem c4_refinements_skipped_on_absence_witness :
    (updateBuyerSchema { city := some "Mohali" }).isOk = true :=
  c4_refinements_skipped_on_absence.1 { city := some "Mohali" } (Or.inl rfl) rfl

-- C10 ------------------------------------------------------------------

/-- C10: every non-ok outcome of the update route (validation failure,
not found, forbidden, conflict, or the zero-mutable-fields bad request)
leaves the store exactly as it was: every error branch returns before
the update statement and the history insert. -/
theorem c10_update_error_atomicity (now : Int) (u : ReqUser) (id : Nat)
    (body : UpdateCandidate) (st : Store)
    (h : ∀ b, (updateBuyer now u id body st).1 ≠ UpdateOutcome.ok b) :
    (updateBuyer now u id body st).2 = st := by
  unfold updateBuyer at h ⊢
  cases hv : updateBuyerSchema body with
  | error es => simp [hv]
  | ok p =>
    simp only [hv] at h ⊢
    cases hf : st.buyers.find? (fun b => b.id == id) with
    | none => simp [hf]
    | some cur =>
      simp only [hf] at h ⊢
      by_cases ho : checkOwnership u cur.ownerId
      · simp only [ho, Bool.not_true, Bool.false_eq_true, if_false] at h ⊢
        cases ht : p.updatedAt with
        | none =>
            simp only [ht] at h ⊢
            rcases performUpdate_cases now u cur p st with hc | ⟨st2, hc⟩
            · simp [hc]
            · exact absurd (by simp [hc]) (h (applyUpdate cur p now))
        | some t =>
            simp only [ht] at h ⊢
            by_cases hb : (t.epochMs != cur.updatedAt) = true
            · simp [hb]
            · simp only [hb, Bool.false_eq_true, if_false] at h ⊢
              rcases performUpdate_cases now u cur p st with hc | ⟨st2, hc⟩
              · simp [hc]
              · exact absurd (by simp [hc]) (h (applyUpdate cur p now))
      · simp [ho]

-- C2 -------------------------------------------------------------------

/-- C2: with a validated payload, an existing record and ownership
established, the concurrency gate behaves as claimed: a supplied token
whose denoted instant differs from the stored updatedAt instant makes
the whole update fail with Conflict carrying the current updatedAt and
leaves the store untouched; a supplied token denoting exactly the
stored instant never yields Conflict, whatever its textual form; and a
payload without a token never yields Conflict. -/
theorem c2_optimistic_concurrency (now : Int) (u : ReqUser) (id : Nat)
    (body : UpdateCandidate) (st : Store) (p : UpdatePayload) (cur : StoredBuyer)
    (hv : updateBuyerSchema body = .ok p)
    (hf : st.buyers.find? (fun b => b.id == id) = some cur)
    (ho : checkOwnership u cur.ownerId = true) :
    (∀ t, p.updatedAt = some t → t.epochMs ≠ cur.updatedAt →
        updateBuyer now u id body st = (.conflict cur.updatedAt, st)) ∧
    (∀ t, p.updatedAt = some t → t.epochMs = cur.updatedAt →
        ∀ c, (updateBuyer now u id body st).1 ≠ .conflict c) ∧
    (p.updatedAt = none →
        ∀ c, (updateBuyer now u id body st).1 ≠ .conflict c) := by
  unfold updateBuyer
  simp only [hv, hf, ho, Bool.not_true, Bool.false_eq_true, if_false]
  refine ⟨?_, ?_, ?_⟩
  · intro t ht hne
    simp [ht, bne_iff_ne, hne]
  · intro t ht heq c
    simp only [ht, heq, bne_self_eq_false, Bool.false_eq_true, if_false]
    exact performUpdate_ne_conflict now u cur p st c
  · intro ht c
    simp only [ht]
    exact performUpdate_ne_conflict now u cur p st c

/-- Witness for C2: against the demo store, a stale token (instant 999
against stored instant 1000) yields Conflict carrying 1000 with the
store unchanged. -/
theorem c2_optimistic_concurrency_witness :
    updateBuyer 2000 demoUser 1
      { status := some "Qualified", updatedAt := some ⟨"2024-01-01T00:00:00.999Z", 999⟩ }
      demoStore = (.conflict 1000, demoStore) :=
  (c2_optimistic_concurrency 2000 demoUser 1
      { status := some "Qualified", updatedAt := some ⟨"2024-01-01T00:00:00.999Z", 999⟩ }
      demoStore
      { status := some "Qualified", updatedAt := some ⟨"2024-01-01T00:00:00.999Z", 999⟩ }
      demoBuyer rfl rfl rfl).1
    ⟨"2024-01-01T00:00:00.999Z", 999⟩ rfl (by decide)

-- C9 -------------------------------------------------------------------

/-- C9: the update route never writes the owner column: under unique
row identifiers, the owner of every stored buyer after any call of the
update handler is exactly what it was before, whatever the outcome and
whatever keys the body carries (the field mapping has no owner entry
and the insert sets it once at creation). -/
theorem c9_owner_immutable (now : Int) (u : ReqUser) (id : Nat)
    (body : UpdateCandidate) (st : Store)
    (hnodup : (st.buyers.map StoredBuyer.id).Nodup) :
    (updateBuyer now u id body st).2.buyers.map StoredBuyer.ownerId
      = st.buyers.map StoredBuyer.ownerId := by
  unfold updateBuyer
  cases hv : updateBuyerSchema body with
  | error es => rfl
  | ok p =>
    cases hf : st.buyers.find? (fun b => b.id == id) with
    | none => rfl
    | some cur =>
      have hcur : cur ∈ st.buyers := List.mem_of_find?_eq_some hf
      have hperf : (performUpdate now u cur p st).2.buyers.map StoredBuyer.ownerId
          = st.buyers.map StoredBuyer.ownerId := by
        have hkey : ∀ b ∈ st.buyers,
            (if b.id == cur.id then applyUpdate cur p now else b).ownerId = b.ownerId := by
          intro b hb
          by_cases he : (b.id == cur.id) = true
          · have hbc : b = cur :=
              List.inj_on_of_nodup_map hnodup hb hcur (by simpa using he)
            simp [he, applyUpdate, hbc]
          · simp [he]
        by_cases hs : (suppliedFields p).isEmpty
        · simp [performUpdate, hs]
        · by_cases hc : (computeChanges cur p).isEmpty <;>
            · simp only [performUpdate, hs, hc, Bool.false_eq_true, if_false, if_true,
                recordHistory, List.map_map]
              exact List.map_congr_left fun b hb => hkey b hb
      by_cases ho : checkOwnership u cur.ownerId
      · simp only [ho, Bool.not_true, Bool.false_eq_true, if_false]
        cases ht : p.updatedAt with
        | none => exact hperf
        | some t =>
            by_cases hb : (t.epochMs != cur.updatedAt) = true
            · simp [hb]
            · simpa [hb] using hperf
      · simp [ho]

/-- Witness for C9: a concrete successful status update against the
demo store leaves the owner column untouched. -/
theorem c9_owner_immutable_witness :
    (updateBuyer 2000 demoUser 1 { status := some "Qualified" } demoStore).2.buyers.map
        StoredBuyer.ownerId = demoStore.buyers.map StoredBuyer.ownerId :=
  c9_owner_immutable 2000 demoUser 1 { status := some "Qualified" } demoStore (by decide)

/-- Witness for C10: a concrete call that fails with NotFound (empty
store) leaves the store unchanged. -/
theorem c10_update_error_atomicity_witness :
    (updateBuyer 0 demoUser 1 { status := some "Qualified" } ⟨[], []⟩).2 = (⟨[], []⟩ : Store) :=
  c10_update_error_atomicity 0 demoUser 1 { status := some "Qualified" } ⟨[], []⟩
    (fun b h => by
      rw [show (updateBuyer 0 demoUser 1 { status := some "Qualified" } ⟨[], []⟩).1
          = UpdateOutcome.notFound from rfl] at h
      exact UpdateOutcome.noConfusion h)

-- C1 -------------------------------------------------------------------

theorem collectRowErrors_nil (idx : Nat) : collectRowErrors [] idx = [] := rfl

theorem collectRowErrors_cons (r : CsvRow) (rs : List CsvRow) (idx : Nat) :
    collectRowErrors (r :: rs) idx =
      match csvRowSchema (processRow r) with
      | .error es => (idx + 1, es) :: collectRowErrors rs (idx + 1)
      | .ok _ => collectRowErrors rs (idx + 1) := rfl

theorem rowValid_eq_true {r : CsvRow} {d : Lead}
    (h : csvRowSchema (processRow r) = .ok d) : rowValid r = true := by
  unfold rowValid rowResult
  rw [h]
  rfl

theorem rowValid_eq_false {r : CsvRow} {es : List String}
    (h : csvRowSchema (processRow r) = .error es) : rowValid r = false := by
  unfold rowValid rowResult
  rw [h]
  rfl

theorem rowIssues_eq {r : CsvRow} {es : List String}
    (h : csvRowSchema (processRow r) = .error es) : rowIssues r = es := by
  unfold rowIssues rowResult
  rw [h]

theorem collectRowErrors_nil_iff (rows : List CsvRow) (idx : Nat) :
    collectRowErrors rows idx = [] ↔ ∀ r ∈ rows, rowValid r = true := by
  induction rows generalizing idx with
  | nil => simp [collectRowErrors_nil]
  | cons r rs ih =>
      rw [collectRowErrors_cons]
      cases h : csvRowSchema (processRow r) with
      | error es =>
          constructor
          · intro hc; exact absurd hc (List.cons_ne_nil _ _)
          · intro hall
            have hv := hall r (List.mem_cons_self r rs)
            rw [rowValid_eq_false h] at hv
            exact absurd hv (by simp)
      | ok d =>
          rw [ih (idx + 1)]
          constructor
          · intro hall r2 hr2
            rcases List.mem_cons.mp hr2 with rfl | hmem
            · exact rowValid_eq_true h
            · exact hall r2 hmem
          · intro hall r2 hr2
            exact hall r2 (List.mem_cons_of_mem r hr2)

theorem collectValidRows_length (rows : List CsvRow) :
    (collectValidRows rows).length = (rows.filter (fun r => rowValid r)).length := by
  induction rows with
  | nil => rfl
  | cons r rs ih =>
      simp only [collectValidRows, List.filterMap_cons, List.filter_cons]
      cases h : csvRowSchema (processRow r) with
      | error es =>
          rw [rowValid_eq_false h]
          simpa [Except.toOption] using ih
      | ok d =>
          rw [rowValid_eq_true h]
          simpa [Except.toOption] using ih

theorem collectRowErrors_complete (rows : List CsvRow) (idx i : Nat)
    (hi : i < rows.length) (hbad : rowValid (rows.getD i blankRow) = false) :
    (idx + i + 1, rowIssues (rows.getD i blankRow)) ∈ collectRowErrors rows idx := by
  induction rows generalizing idx i with
  | nil => exact absurd hi (by simp)
  | cons r rs ih =>
      rw [collectRowErrors_cons]
      cases i with
      | zero =>
          simp only [List.getD_cons_zero, Nat.add_zero] at hbad ⊢
          cases h : csvRowSchema (processRow r) with
          | error es =>
              simp only [rowIssues_eq h]
              exact List.mem_cons_self _ _
          | ok d =>
              rw [rowValid_eq_true h] at hbad
              exact absurd hbad (by simp)
      | succ j =>
          simp only [List.getD_cons_succ] at hbad ⊢
          have harith : idx + (j + 1) + 1 = (idx + 1) + j + 1 := by omega
          rw [harith]
          cases h : csvRowSchema (processRow r) with
          | error es =>
              exact List.mem_cons_of_mem _ (ih (idx + 1) j (by simpa using hi) hbad)
          | ok d =>
              exact ih (idx + 1) j (by simpa using hi) hbad

theorem collectRowErrors_sound (rows : List CsvRow) (idx : Nat) :
    ∀ e ∈ collectRowErrors rows idx, ∃ i, i < rows.length ∧
      rowValid (rows.getD i blankRow) = false ∧
      e = (idx + i + 1, rowIssues (rows.getD i blankRow)) := by
  induction rows generalizing idx with
  | nil => simp [collectRowErrors_nil]
  | cons r rs ih =>
      intro e he
      rw [collectRowErrors_cons] at he
      cases h : csvRowSchema (processRow r) with
      | error es =>
          rw [h] at he
          rcases List.mem_cons.mp he with rfl | hmem
          · exact ⟨0, by simp, by simpa using rowValid_eq_false h,
              by simp [rowIssues_eq h]⟩
          · rcases ih (idx + 1) e hmem with ⟨i, hi, hb, hei⟩
            exact ⟨i + 1, by simpa using hi, by simpa using hb,
              by rw [hei]; simp only [List.getD_cons_succ]; congr 2; omega⟩
      | ok d =>
          rw [h] at he
          rcases ih (idx + 1) e he with ⟨i, hi, hb, hei⟩
          exact ⟨i + 1, by simpa using hi, by simpa using hb,
            by rw [hei]; simp only [List.getD_cons_succ]; congr 2; omega⟩

/-- C1: whenever a batch within the size caps contains at least one row
failing the CSV-variant validation, the import inserts nothing (the
store is exactly as before), and the response is the full rejection:
the accumulated error list, the count of valid rows and the count of
total rows; the error list carries an entry for every failing row keyed
by its one-based position and nothing else, so validation did not stop
at the first failure. -/
theorem c1_import_all_or_nothing (u : ReqUser) (rows : List CsvRow)
    (nextId : Nat) (now : Int) (st : Store)
    (h1 : rows ≠ []) (h2 : rows.length ≤ 200)
    (h3 : ∃ r ∈ rows, rowValid r = false) :
    (importBuyers u rows nextId now st).2 = st ∧
    (importBuyers u rows nextId now st).1 =
      .validationFailed (collectRowErrors rows 0)
        ((rows.filter (fun r => rowValid r)).length) rows.length ∧
    (∀ i, i < rows.length → rowValid (rows.getD i blankRow) = false →
        (i + 1, rowIssues (rows.getD i blankRow)) ∈ collectRowErrors rows 0) ∧
    (∀ e ∈ collectRowErrors rows 0, ∃ i, i < rows.length ∧
        rowValid (rows.getD i blankRow) = false ∧
        e = (i + 1, rowIssues (rows.getD i blankRow))) := by
  have herr : collectRowErrors rows 0 ≠ [] := by
    intro hnil
    rcases h3 with ⟨r, hr, hbad⟩
    have := (collectRowErrors_nil_iff rows 0).mp hnil r hr
    rw [this] at hbad
    exact absurd hbad (by simp)
  have hempty : (collectRowErrors rows 0).isEmpty = false := by
    rcases hc : collectRowErrors rows 0 with _ | ⟨e, es⟩
    · exact absurd hc herr
    · rfl
  have hlen : (rows.length == 0) = false := by
    have : rows.length ≠ 0 := by
      intro hz; exact h1 (List.length_eq_zero.mp hz)
    simpa using this
  have hcap : ¬ 200 < rows.length := by omega
  have himp : importBuyers u rows nextId now st =
      (.validationFailed (collectRowErrors rows 0) (collectValidRows rows).length
        rows.length, st) := by
    rw [importBuyers]
    simp only [hlen, Bool.false_eq_true, if_false]
    rw [if_neg hcap]
    simp only [hempty, Bool.not_false, if_true]
  refine ⟨by rw [himp], ?_, ?_, ?_⟩
  · rw [himp, collectValidRows_length]
  · intro i hi hbad
    simpa using collectRowErrors_complete rows 0 i hi hbad
  · intro e he
    rcases collectRowErrors_sound rows 0 e he with ⟨i, hi, hb, hei⟩
    exact ⟨i, hi, hb, by simpa using hei⟩

/-- Witness for C1: importing the single all-empty row (which fails
validation) leaves the demo store unchanged. -/
theorem c1_import_all_or_nothing_witness :
    (importBuyers demoUser [blankRow] 1 0 demoStore).2 = demoStore :=
  (c1_import_all_or_nothing demoUser [blankRow] 1 0 demoStore (by simp)
    (by simp) ⟨blankRow, by simp, rfl⟩).1

-- C6 -------------------------------------------------------------------

/-- C6 counterexample: the claim says a supplied field whose normalized
value equals the stored value (empty string against stored null)
produces no diff entry. The loop compares the raw value instead:
against the demo buyer (stored email null), supplying the empty-string
email yields the entry from null to empty string, and the handler
writes that diff to history. -/
theorem c6_raw_value_diff_counterexample :
    jvNormalize (.str "") = JVal.null ∧
    computeChanges demoBuyer emailClearPayload
      = [(BuyerField.email, ⟨JVal.null, JVal.str ""⟩)] ∧
    (updateBuyer 2000 demoUser 1 emailClearBody demoStore).2.history
      = demoStore.history ++
          [⟨1, 7, .updated [(BuyerField.email, ⟨JVal.null, JVal.str ""⟩)]⟩] :=
  ⟨rfl, rfl, rfl⟩

/-- C6 amended: the change set contains an entry for a field exactly
when the field is present in the payload and its raw supplied value is
JS-strictly unequal to the stored value (so an empty string against
stored null does produce an entry, and a supplied tags array always
does, arrays being compared by reference); the entry carries the raw
stored and supplied values, and fields absent from the payload are
skipped, never treated as cleared. -/
theorem c6_diff_characterization (cur : StoredBuyer) (p : UpdatePayload)
    (f : BuyerField) (ch : FieldChange) :
    (f, ch) ∈ computeChanges cur p ↔
      ∃ v, payloadJ p f = some v ∧ jsStrictNe (storedJ cur f) v = true ∧
        ch = ⟨storedJ cur f, v⟩ := by
  unfold computeChanges
  rw [List.mem_filterMap]
  constructor
  · rintro ⟨g, hg, hmatch⟩
    cases hv : payloadJ p g with
    | none => rw [hv] at hmatch; exact absurd hmatch (by simp)
    | some v =>
        rw [hv] at hmatch
        by_cases hne : jsStrictNe (storedJ cur g) v = true
        · simp only [hne, if_true] at hmatch
          obtain ⟨rfl, rfl⟩ : g = f ∧ (⟨storedJ cur g, v⟩ : FieldChange) = ch := by
            have := Option.some.inj hmatch
            exact ⟨congrArg Prod.fst this, congrArg Prod.snd this⟩
          exact ⟨v, hv, hne, rfl⟩
        · simp [hne] at hmatch
  · rintro ⟨v, hv, hne, hch⟩
    exact ⟨f, mem_fieldOrder f, by rw [hv]; simp [hne, hch]⟩

/-- Witness for C6 (amended): the characterization applied at the
concrete empty-string-email payload against the demo buyer. -/
theorem c6_diff_characterization_witness :
    (BuyerField.email, (⟨JVal.null, JVal.str ""⟩ : FieldChange)) ∈
      computeChanges demoBuyer emailClearPayload :=
  (c6_diff_characterization demoBuyer emailClearPayload BuyerField.email
      ⟨JVal.null, JVal.str ""⟩).mpr ⟨JVal.str "", rfl, rfl, rfl⟩

-- C5 -------------------------------------------------------------------

/-- C5 counterexample: the claim says a no-op update leaves updatedAt
unchanged. Submitting the status the demo buyer already has succeeds
and writes no audit entry, but the row is rewritten with updated_at
refreshed to the request time: the stored instant moves from 1000 to
2000. -/
theorem c5_noop_refreshes_updatedAt_counterexample :
    (updateBuyer 2000 demoUser 1 noopBody demoStore).1
      = .ok { demoBuyer with updatedAt := 2000 } ∧
    (updateBuyer 2000 demoUser 1 noopBody demoStore).2.history = demoStore.history ∧
    ({ demoBuyer with updatedAt := 2000 } : StoredBuyer).updatedAt ≠ demoBuyer.updatedAt :=
  ⟨rfl, rfl, by decide⟩

/-- C5 amended: an update whose supplied fields are scalars carrying
exactly the stored values (none of them the empty string, and no
supplied tags array) succeeds, writes no audit entry, and rewrites the
row unchanged except that updated_at is refreshed to the request time
rather than left unchanged. -/
theorem c5_noop_update (now : Int) (u : ReqUser) (id : Nat) (body : UpdateCandidate)
    (st : Store) (p : UpdatePayload) (cur : StoredBuyer)
    (hv : updateBuyerSchema body = .ok p)
    (hf : st.buyers.find? (fun b => b.id == id) = some cur)
    (ho : checkOwnership u cur.ownerId = true)
    (htok : tokenMatches p cur = true)
    (hsup : (suppliedFields p).isEmpty = false)
    (hnoop : noopPayload cur p = true) :
    updateBuyer now u id body st =
      (.ok { cur with updatedAt := now },
       { st with buyers := st.buyers.map (fun b => if b.id == cur.id then { cur with updatedAt := now } else b) }) ∧
    (updateBuyer now u id body st).2.history = st.history := by
  simp only [noopPayload, Bool.and_eq_true] at hnoop
  obtain ⟨⟨⟨⟨⟨⟨⟨⟨⟨⟨⟨⟨⟨h1, h2⟩, h3⟩, h4⟩, h5⟩, h6⟩, h7⟩, h8⟩, h9⟩, h10⟩, h11⟩, h12⟩, h13⟩, h14⟩ := hnoop
  have e1 : p.fullName = none ∨ p.fullName = some cur.fullName := by simpa using h1
  have e2 : p.email = none ∨ (p.email ≠ some "" ∧ p.email = cur.email) := by simpa using h2
  have e3 : p.phone = none ∨ p.phone = some cur.phone := by simpa using h3
  have e4 : p.city = none ∨ p.city = some cur.city := by simpa using h4
  have e5 : p.propertyType = none ∨ p.propertyType = some cur.propertyType := by
    simpa using h5
  have e6 : p.bhk = none ∨ p.bhk = cur.bhk := by simpa using h6
  have e7 : p.purpose = none ∨ p.purpose = some cur.purpose := by simpa using h7
  have e8 : p.budgetMin = none ∨ p.budgetMin = cur.budgetMin := by simpa using h8
  have e9 : p.budgetMax = none ∨ p.budgetMax = cur.budgetMax := by simpa using h9
  have e10 : p.timeline = none ∨ p.timeline = some cur.timeline := by simpa using h10
  have e11 : p.source = none ∨ p.source = some cur.source := by simpa using h11
  have e12 : p.status = none ∨ p.status = some cur.status := by simpa using h12
  have e13 : p.notes = none ∨ (p.notes ≠ some "" ∧ p.notes = cur.notes) := by simpa using h13
  have e14 : p.tags = none := by simpa using h14
  have hch : computeChanges cur p = [] := by
    rw [computeChanges, List.filterMap_eq_nil_iff]
    intro f _
    cases f
    case fullName => rcases e1 with h | h <;> simp [payloadJ, storedJ, jsStrictNe, h]
    case email =>
        rcases e2 with h | ⟨hne, heq⟩
        · simp [payloadJ, h]
        · cases hpe : p.email with
          | none => simp [payloadJ, hpe]
          | some v =>
              rw [hpe] at heq
              simp [payloadJ, storedJ, jsStrictNe, hpe, ← heq, optStrJ]
    case phone => rcases e3 with h | h <;> simp [payloadJ, storedJ, jsStrictNe, h]
    case city => rcases e4 with h | h <;> simp [payloadJ, storedJ, jsStrictNe, h]
    case propertyType => rcases e5 with h | h <;> simp [payloadJ, storedJ, jsStrictNe, h]
    case bhk =>
        rcases e6 with h | h
        · simp [payloadJ, h]
        · cases hpe : p.bhk with
          | none => simp [payloadJ, hpe]
          | some v =>
              rw [hpe] at h
              simp [payloadJ, storedJ, jsStrictNe, hpe, ← h, optStrJ]
    case purpose => rcases e7 with h | h <;> simp [payloadJ, storedJ, jsStrictNe, h]
    case budgetMin =>
        rcases e8 with h | h
        · simp [payloadJ, h]
        · cases hpe : p.budgetMin with
          | none => simp [payloadJ, hpe]
          | some v =>
              rw [hpe] at h
              simp [payloadJ, storedJ, jsStrictNe, hpe, ← h, optIntJ]
    case budgetMax =>
        rcases e9 with h | h
        · simp [payloadJ, h]
        · cases hpe : p.budgetMax with
          | none => simp [payloadJ, hpe]
          | some v =>
              rw [hpe] at h
              simp [payloadJ, storedJ, jsStrictNe, hpe, ← h, optIntJ]
    case timeline => rcases e10 with h | h <;> simp [payloadJ, storedJ, jsStrictNe, h]
    case source => rcases e11 with h | h <;> simp [payloadJ, storedJ, jsStrictNe, h]
    case status => rcases e12 with h | h <;> simp [payloadJ, storedJ, jsStrictNe, h]
    case notes =>
        rcases e13 with h | ⟨hne, heq⟩
        · simp [payloadJ, h]
        · cases hpe : p.notes with
          | none => simp [payloadJ, hpe]
          | some v =>
              rw [hpe] at heq
              simp [payloadJ, storedJ, jsStrictNe, hpe, ← heq, optStrJ]
    case tags => simp [payloadJ, e14]
  have f1 : p.fullName.getD cur.fullName = cur.fullName := by
    rcases e1 with h | h <;> simp [h]
  have f2 : (match p.email with
      | some v => if v == "" then none else some v
      | none => cur.email) = cur.email := by
    rcases e2 with h | ⟨hne, heq⟩
    · simp [h]
    · cases hpe : p.email with
      | none => simp
      | some v =>
          rw [hpe] at heq hne
          have hvne : (v == "") = false := by
            simp only [beq_eq_false_iff_ne]
            intro hv
            exact hne (by rw [hv])
          simp [hvne, heq]
  have f3 : p.phone.getD cur.phone = cur.phone := by
    rcases e3 with h | h <;> simp [h]
  have f4 : p.city.getD cur.city = cur.city := by
    rcases e4 with h | h <;> simp [h]
  have f5 : p.propertyType.getD cur.propertyType = cur.propertyType := by
    rcases e5 with h | h <;> simp [h]
  have f6 : (match p.bhk with
      | some v => some v
      | none => cur.bhk) = cur.bhk := by
    rcases e6 with h | h
    · simp [h]
    · cases hpe : p.bhk with
      | none => simp
      | some v => rw [hpe] at h; simp [h]
  have f7 : p.purpose.getD cur.purpose = cur.purpose := by
    rcases e7 with h | h <;> simp [h]
  have f8 : (match p.budgetMin with
      | some v => some v
      | none => cur.budgetMin) = cur.budgetMin := by
    rcases e8 with h | h
    · simp [h]
    · cases hpe : p.budgetMin with
      | none => simp
      | some v => rw [hpe] at h; simp [h]
  have f9 : (match p.budgetMax with
      | some v => some v
      | none => cur.budgetMax) = cur.budgetMax := by
    rcases e9 with h | h
    · simp [h]
    · cases hpe : p.budgetMax with
      | none => simp
      | some v => rw [hpe] at h; simp [h]
  have f10 : p.timeline.getD cur.timeline = cur.timeline := by
    rcases e10 with h | h <;> simp [h]
  have f11 : p.source.getD cur.source = cur.source := by
    rcases e11 with h | h <;> simp [h]
  have f12 : p.status.getD cur.status = cur.status := by
    rcases e12 with h | h <;> simp [h]
  have f13 : (match p.notes with
      | some v => if v == "" then none else some v
      | none => cur.notes) = cur.notes := by
    rcases e13 with h | ⟨hne, heq⟩
    · simp [h]
    · cases hpe : p.notes with
      | none => simp
      | some v =>
          rw [hpe] at heq hne
          have hvne : (v == "") = false := by
            simp only [beq_eq_false_iff_ne]
            intro hv
            exact hne (by rw [hv])
          simp [hvne, heq]
  have f14 : p.tags.getD cur.tags = cur.tags := by simp [e14]
  have happly : applyUpdate cur p now = { cur with updatedAt := now } := by
    unfold applyUpdate
    rw [f1, f2, f3, f4, f5, f6, f7, f8, f9, f10, f11, f12, f13, f14]
  have hperf : performUpdate now u cur p st =
      (.ok { cur with updatedAt := now },
       { st with buyers := st.buyers.map (fun b => if b.id == cur.id then { cur with updatedAt := now } else b) }) := by
    rw [performUpdate]
    simp only [hsup, Bool.false_eq_true, if_false, hch, happly, List.isEmpty_nil, if_true]
  have hmain : updateBuyer now u id body st =
      (.ok { cur with updatedAt := now },
       { st with buyers := st.buyers.map (fun b => if b.id == cur.id then { cur with updatedAt := now } else b) }) := by
    unfold updateBuyer
    simp only [hv, hf, ho, Bool.not_true, Bool.false_eq_true, if_false]
    cases hpu : p.updatedAt with
    | none => exact hperf
    | some t =>
        rw [tokenMatches, hpu] at htok
        have hbne : (t.epochMs != cur.updatedAt) = false := by simpa using htok
        simp only [hbne, Bool.false_eq_true, if_false]
        exact hperf
  exact ⟨hmain, by rw [hmain]⟩

/-- Witness for C5 (amended): the concrete no-op status update against
the demo store keeps the history empty. -/
theorem c5_noop_update_witness :
    (updateBuyer 2000 demoUser 1 noopBody demoStore).2.history = demoStore.history :=
  (c5_noop_update 2000 demoUser 1 noopBody demoStore { status := some "New" }
    demoBuyer rfl rfl rfl rfl rfl rfl).2

-- C7 -------------------------------------------------------------------

/-- C7 counterexample: the claim says any sortBy value outside the
allow list, unrecognized strings and the empty string included, falls
back to the default sort and returns a result. Instead, an unrecognized
value is rejected by the filter schema and surfaces as a generic
failure, and the empty string passes the schema but resolves to no
valid sort column, so the store rejects the statement: both requests
error. -/
theorem c7_sortBy_no_fallback_counterexample :
    listBuyers badSortQuery = .serverError ∧ listBuyers emptySortQuery = .serverError :=
  ⟨rfl, rfl⟩

theorem validSortColumns_mem {s c : String} (h : validSortColumns s = some c) :
    c ∈ ["b.updated_at", "b.full_name", "b.created_at"] := by
  unfold validSortColumns at h
  split_ifs at h <;> simp_all

theorem filtersSchema_sortBy (q : FilterQuery) (f : Filters)
    (h : filtersSchema q = .ok f) : parseSortBy q.sortBy = .ok f.sortBy := by
  unfold filtersSchema at h
  obtain ⟨g1, a9, h1, ha9, hb⟩ := accum_ok_iff.mp h
  obtain ⟨g2, a8, h2, ha8, hg1⟩ := accum_ok_iff.mp h1
  obtain ⟨g3, a7, h3, ha7, hg2⟩ := accum_ok_iff.mp h2
  obtain ⟨g4, a6, h4, ha6, hg3⟩ := accum_ok_iff.mp h3
  obtain ⟨g5, a5, h5, ha5, hg4⟩ := accum_ok_iff.mp h4
  obtain ⟨g6, a4, h6, ha4, hg5⟩ := accum_ok_iff.mp h5
  obtain ⟨g7, a3, h7, ha3, hg6⟩ := accum_ok_iff.mp h6
  obtain ⟨g8, a2, h8, ha2, hg7⟩ := accum_ok_iff.mp h7
  obtain ⟨g9, a1, h9, ha1, hg8⟩ := accum_ok_iff.mp h8
  have e9 : Filters.mk = g9 := Except.ok.inj h9
  subst e9
  subst hg8
  subst hg7
  subst hg6
  subst hg5
  subst hg4
  subst hg3
  subst hg2
  subst hg1
  subst hb
  exact ha8

/-- C7 amended: the list translator never sorts by a column outside the
allow list (whenever it produces a sorted result, the column is one of
the three); an absent sortBy takes the default and sorts by updated_at;
but an unrecognized non-empty sortBy is rejected by the schema and an
empty-string sortBy resolves to no valid column, both surfacing as
errors rather than falling back (see the counterexample). -/
theorem c7_sort_allowlist_and_default :
    (∀ (q : FilterQuery) (col dir : String) (lim off : Int),
        listBuyers q = .ok col dir lim off →
        col ∈ ["b.updated_at", "b.full_name", "b.created_at"]) ∧
    (∀ (q : FilterQuery) (col dir : String) (lim off : Int), q.sortBy = none →
        listBuyers q = .ok col dir lim off → col = "b.updated_at") ∧
    listBuyers {} = .ok "b.updated_at" "DESC" 10 0 := by
  have key : ∀ (q : FilterQuery) (col dir : String) (lim off : Int),
      listBuyers q = .ok col dir lim off →
      ∃ f, filtersSchema q = .ok f ∧ validSortColumns f.sortBy = some col := by
    intro q col dir lim off h
    unfold listBuyers at h
    cases hp : filtersSchema q with
    | error es => simp only [hp] at h; exact ListOutcome.noConfusion h
    | ok f =>
        simp only [hp] at h
        refine ⟨f, rfl, ?_⟩
        cases hc : validSortColumns f.sortBy with
        | none => simp only [hc] at h; exact ListOutcome.noConfusion h
        | some c =>
            simp only [hc] at h
            by_cases hl : (f.limit == NumOrEmpty.empty) = true
            · rw [if_pos hl] at h; exact ListOutcome.noConfusion h
            · rw [if_neg hl] at h
              by_cases hof : (numCoerce f.page - 1) * numCoerce f.limit < 0
              · rw [if_pos hof] at h; exact ListOutcome.noConfusion h
              · rw [if_neg hof] at h
                injection h with hcol hrest
                rw [hcol]
  refine ⟨?_, ?_, by decide⟩
  · intro q col dir lim off h
    obtain ⟨f, hp, hc⟩ := key q col dir lim off h
    exact validSortColumns_mem hc
  · intro q col dir lim off hsb h
    obtain ⟨f, hp, hc⟩ := key q col dir lim off h
    have hps := filtersSchema_sortBy q f hp
    rw [hsb] at hps
    have hfs : "updatedAt" = f.sortBy :=
      Except.ok.inj (show (Except.ok "updatedAt" : Except String String) = .ok f.sortBy from hps)
    rw [← hfs] at hc
    have : some "b.updated_at" = some col := by rw [← hc]; rfl
    exact (Option.some.inj this).symm

/-- Witness for C7 (amended): a concrete allow-listed query sorts by
the full name column, which is in the allow list. -/
theorem c7_sort_allowlist_and_default_witness :
    listBuyers fullNameSortQuery = .ok "b.full_name" "ASC" 10 0 ∧
    "b.full_name" ∈ ["b.updated_at", "b.full_name", "b.created_at"] :=
  ⟨by decide, c7_sort_allowlist_and_default.1 fullNameSortQuery "b.full_name" "ASC" 10 0
    (by decide)⟩

-- C8: decimal printing and parsing ------------------------------------

theorem digitChar_isDigit {d : Nat} (h : d < 10) : (digitChar d).isDigit = true := by
  interval_cases d <;> decide

theorem digitChar_val {d : Nat} (h : d < 10) : (digitChar d).toNat - 48 = d := by
  interval_cases d <;> decide

theorem natToDigitsAux_append (n : Nat) : ∀ acc : List Char,
    natToDigitsAux n acc = natToDigitsAux n [] ++ acc := by
  induction n using Nat.strong_induction_on with
  | _ n ih =>
      intro acc
      by_cases h : n < 10
      · conv_lhs => rw [natToDigitsAux]
        conv_rhs => rw [natToDigitsAux]
        rw [if_pos h, if_pos h]
        rfl
      · conv_lhs => rw [natToDigitsAux]
        conv_rhs => rw [natToDigitsAux]
        rw [if_neg h, if_neg h]
        have hlt : n / 10 < n := Nat.div_lt_self (by omega) (by omega)
        rw [ih (n / 10) hlt (digitChar (n % 10) :: acc),
          ih (n / 10) hlt (digitChar (n % 10) :: [])]
        simp

theorem natToDigitsAux_all_digits (n : Nat) :
    ∀ c ∈ natToDigitsAux n [], c.isDigit = true := by
  induction n using Nat.strong_induction_on with
  | _ n ih =>
      intro c hc
      by_cases h : n < 10
      · rw [natToDigitsAux, if_pos h] at hc
        rcases List.mem_singleton.mp hc with rfl
        exact digitChar_isDigit h
      · rw [natToDigitsAux, if_neg h,
          natToDigitsAux_append (n / 10) (digitChar (n % 10) :: [])] at hc
        rcases List.mem_append.mp hc with hm | hm
        · exact ih (n / 10) (Nat.div_lt_self (by omega) (by omega)) c hm
        · rcases List.mem_singleton.mp hm with rfl
          exact digitChar_isDigit (Nat.mod_lt n (by omega))

theorem natToDigitsAux_ne_nil (n : Nat) : natToDigitsAux n [] ≠ [] := by
  by_cases h : n < 10
  · rw [natToDigitsAux, if_pos h]
    exact List.cons_ne_nil _ _
  · rw [natToDigitsAux, if_neg h, natToDigitsAux_append (n / 10) (digitChar (n % 10) :: [])]
    simp

theorem digitsToInt_append_singleton (xs : List Char) (c : Char) :
    digitsToInt (xs ++ [c]) = digitsToInt xs * 10 + ((c.toNat - 48 : Nat) : Int) := by
  simp [digitsToInt, List.foldl_append]

theorem digitsToInt_natToDigits (n : Nat) :
    digitsToInt (natToDigitsAux n []) = (n : Int) := by
  induction n using Nat.strong_induction_on with
  | _ n ih =>
      by_cases h : n < 10
      · rw [natToDigitsAux, if_pos h]
        have : (digitChar n).toNat - 48 = n := digitChar_val h
        simp [digitsToInt, this]
      · rw [natToDigitsAux, if_neg h,
          natToDigitsAux_append (n / 10) (digitChar (n % 10) :: []),
          digitsToInt_append_singleton,
          ih (n / 10) (Nat.div_lt_self (by omega) (by omega)),
          digitChar_val (Nat.mod_lt n (by omega))]
        have := Nat.div_add_mod n 10
        omega

theorem isDigit_beq_false {c x : Char} (h : c.isDigit = true) (hx : x.isDigit = false) :
    (c == x) = false := by
  cases hb : c == x with
  | false => rfl
  | true =>
      have hcx : c = x := eq_of_beq hb
      rw [hcx, hx] at h
      exact absurd h (by simp)

theorem not_ws_of_isDigit {c : Char} (h : c.isDigit = true) : c.isWhitespace = false := by
  cases hw : c.isWhitespace with
  | false => rfl
  | true =>
      exfalso
      simp only [Char.isWhitespace] at hw
      simp only [Bool.or_eq_true, decide_eq_true_eq] at hw
      rcases hw with ((rfl | rfl) | rfl) | rfl <;> exact absurd h (by decide)

theorem takeWhile_eq_self_of_all {p : Char → Bool} :
    ∀ l : List Char, (∀ c ∈ l, p c = true) → l.takeWhile p = l := by
  intro l
  induction l with
  | nil => intro _; rfl
  | cons c cs ih =>
      intro hall
      rw [List.takeWhile_cons, hall c (List.mem_cons_self c cs)]
      simp [ih (fun x hx => hall x (List.mem_cons_of_mem c hx))]

theorem parseIntJS_intToDecimal {n : Int} (h : 0 < n) :
    parseIntJS (intToDecimal n) = .num n := by
  have hnn : ¬ n < 0 := by omega
  rw [intToDecimal, if_neg hnn]
  set ds := natToDigitsAux n.toNat [] with hds
  have hlist : (String.mk ds).toList = ds := rfl
  have hall : ∀ c ∈ ds, c.isDigit = true := by
    rw [hds]; exact natToDigitsAux_all_digits n.toNat
  have hne : ds ≠ [] := by rw [hds]; exact natToDigitsAux_ne_nil n.toNat
  rw [parseIntJS, hlist]
  rcases hcs : ds with _ | ⟨c, rest⟩
  · exact absurd hcs hne
  · have hcd : c.isDigit = true := by
      apply hall; rw [hcs]; exact List.mem_cons_self c rest
    have hdw : (c :: rest).dropWhile Char.isWhitespace = c :: rest := by
      rw [List.dropWhile_cons, not_ws_of_isDigit hcd]
      simp
    rw [hdw]
    have hm : (c == '-') = false := isDigit_beq_false hcd (by decide)
    have hp2 : (c == '+') = false := isDigit_beq_false hcd (by decide)
    simp only [hm, hp2, Bool.false_eq_true, if_false]
    have htw : (c :: rest).takeWhile Char.isDigit = c :: rest := by
      apply takeWhile_eq_self_of_all
      intro x hx
      apply hall; rw [hcs]; exact hx
    rw [htw]
    simp only [List.isEmpty_cons, Bool.not_false]
    have : digitsToInt (c :: rest) = (n.toNat : Int) := by
      rw [← hcs, hds]
      exact digitsToInt_natToDigits n.toNat
    rw [this]
    have : (n.toNat : Int) = n := Int.toNat_of_nonneg (by omega)
    rw [this]
    simp

-- C8: comma join and split --------------------------------------------

theorem splitCommaAux_no_comma : ∀ (t acc : List Char),
    (∀ c ∈ t, (c == ',') = false) →
    splitCommaAux t acc = [acc.reverse ++ t] := by
  intro t
  induction t with
  | nil => intro acc _; simp [splitCommaAux]
  | cons c cs ih =>
      intro acc hall
      rw [splitCommaAux]
      rw [hall c (List.mem_cons_self c cs)]
      simp only [Bool.false_eq_true, if_false]
      rw [ih (c :: acc) (fun x hx => hall x (List.mem_cons_of_mem c hx))]
      simp

theorem splitCommaAux_through_comma : ∀ (t : List Char) (acc rest : List Char),
    (∀ c ∈ t, (c == ',') = false) →
    splitCommaAux (t ++ ',' :: rest) acc
      = (acc.reverse ++ t) :: splitCommaAux rest [] := by
  intro t
  induction t with
  | nil =>
      intro acc rest _
      simp only [List.nil_append]
      rw [splitCommaAux]
      simp
  | cons c cs ih =>
      intro acc rest hall
      simp only [List.cons_append]
      rw [splitCommaAux]
      rw [hall c (List.mem_cons_self c cs)]
      simp only [Bool.false_eq_true, if_false]
      rw [ih (c :: acc) rest (fun x hx => hall x (List.mem_cons_of_mem c hx))]
      simp

theorem joinComma_cons_cons (t t2 : String) (rest : List String) :
    joinComma (t :: t2 :: rest) = t ++ "," ++ joinComma (t2 :: rest) := rfl

theorem splitComma_joinComma : ∀ ts : List String, ts ≠ [] →
    (∀ t ∈ ts, ∀ c ∈ t.toList, (c == ',') = false) →
    splitComma (joinComma ts) = ts := by
  intro ts
  induction ts with
  | nil => intro h _; exact absurd rfl h
  | cons t rest ih =>
      intro _ hall
      cases rest with
      | nil =>
          rw [splitComma]
          have : (joinComma [t]).toList = t.toList := rfl
          rw [this, splitCommaAux_no_comma t.toList []
            (hall t (List.mem_cons_self t [])) ]
          simp
      | cons t2 rest2 =>
          rw [splitComma, joinComma_cons_cons]
          have hdata : (t ++ "," ++ joinComma (t2 :: rest2)).toList
              = t.toList ++ ',' :: (joinComma (t2 :: rest2)).toList := by
            simp [String.toList, String.data_append]
          rw [hdata, splitCommaAux_through_comma t.toList [] _
            (hall t (List.mem_cons_self t _))]
          simp only [List.reverse_nil, List.nil_append, List.map_cons]
          have hhead : ({ data := t.toList } : String) = t := rfl
          rw [hhead]
          have htail := ih (List.cons_ne_nil t2 rest2)
            (fun x hx c hc => hall x (List.mem_cons_of_mem t hx) c hc)
          rw [splitComma] at htail
          rw [htail]

theorem joinComma_ne_empty : ∀ ts : List String, ts ≠ [] →
    (∀ t ∈ ts, t ≠ "") → joinComma ts ≠ "" := by
  intro ts
  cases ts with
  | nil => intro h _; exact absurd rfl h
  | cons t rest =>
      intro _ hall
      cases rest with
      | nil => exact hall t (List.mem_cons_self t [])
      | cons t2 rest2 =>
          rw [joinComma_cons_cons]
          intro hcontra
          have : (t ++ "," ++ joinComma (t2 :: rest2)).toList = [] := by
            rw [hcontra]; rfl
          rw [show (t ++ "," ++ joinComma (t2 :: rest2)).toList
              = t.toList ++ ',' :: (joinComma (t2 :: rest2)).toList from by
            simp [String.toList, String.data_append]] at this
          simp at this

theorem length_pos_of_ne_empty {t : String} (h : t ≠ "") : 0 < t.length := by
  cases ht : t.data with
  | nil =>
      exfalso
      apply h
      cases t
      simp_all
  | cons c cs =>
      have : t.length = t.data.length := rfl
      rw [this, ht]
      simp

theorem tagsTransform_joinComma (ts : List String)
    (hclean : ∀ t ∈ ts, cleanTag t = true) :
    tagsTransform (joinComma ts) = ts := by
  cases hts : ts with
  | nil => rfl
  | cons t rest =>
      have hne : ∀ x ∈ ts, x ≠ "" := by
        intro x hx
        have := hclean x hx
        simp only [cleanTag, Bool.and_eq_true, bne_iff_ne] at this
        exact this.1.1
      have hnc : ∀ x ∈ ts, ∀ c ∈ x.toList, (c == ',') = false := by
        intro x hx c hc
        have := hclean x hx
        simp only [cleanTag, Bool.and_eq_true] at this
        have hcall := this.1.2
        rw [List.all_eq_true] at hcall
        have := hcall c hc
        simpa using this
      have htrim : ∀ x ∈ ts, trimJS x = x := by
        intro x hx
        have := hclean x hx
        simp only [cleanTag, Bool.and_eq_true, beq_iff_eq] at this
        exact this.2
      rw [← hts]
      have hjne : joinComma ts ≠ "" :=
        joinComma_ne_empty ts (by rw [hts]; exact List.cons_ne_nil t rest) hne
      rw [tagsTransform]
      rw [if_neg (by simpa using hjne)]
      rw [splitComma_joinComma ts (by rw [hts]; exact List.cons_ne_nil t rest) hnc]
      have hmap : ts.map trimJS = ts := by
        calc ts.map trimJS = ts.map id := List.map_congr_left htrim
        _ = ts := List.map_id ts
      rw [hmap]
      apply List.filter_eq_self.mpr
      intro x hx
      simpa using length_pos_of_ne_empty (hne x hx)

-- C8: one row round-trips ----------------------------------------------

theorem parseFullName_ok {s : String} (h : fullNameOk s = true) :
    parseFullName (some s) = .ok s := by
  simp only [fullNameOk, Bool.and_eq_true, decide_eq_true_eq] at h
  simp only [parseFullName]
  rw [if_neg (by omega), if_neg (by omega)]

theorem parsePhone_ok {s : String} (h : phoneOk s = true) :
    parsePhone (some s) = .ok s := by
  simp [parsePhone, h]

theorem parseEnum_ok {field s : String} {dom : List String}
    (h : dom.contains s = true) : parseEnum field dom (some s) = .ok s := by
  simp only [parseEnum, h, Bool.true_eq, if_true]

theorem parseEnumOpt_ok {field s : String} {dom : List String}
    (h : dom.contains s = true) : parseEnumOpt field dom (some s) = .ok (some s) := by
  simp only [parseEnumOpt]
  rw [if_pos h]

theorem parseStatus_ok {s : String} (h : statusEnum.contains s = true) :
    parseStatus (some s) = .ok s := by
  simp only [parseStatus]
  rw [if_pos h]

theorem parseNotes_ok {s : String} (h : notesOk s = true) :
    parseNotes (some s) = .ok (some s) := by
  simp [parseNotes, h]

theorem parseEmail_ok {s : String} (h1 : s ≠ "") (h2 : isEmail s = true) :
    parseEmail (some s) = .ok (some s) := by
  simp [parseEmail, h1, h2]

theorem exportBudgetCell {n : Int} (hn : 0 < n) :
    (if (intToDecimal n == "") = true then NumField.absent
     else parseIntJS (intToDecimal n)) = .num n := by
  have hne : intToDecimal n ≠ "" := by
    rw [intToDecimal, if_neg (by omega : ¬ n < 0)]
    intro hc
    exact natToDigitsAux_ne_nil n.toNat (congrArg String.data hc)
  rw [if_neg (by simpa using hne), parseIntJS_intToDecimal hn]

theorem csvRowSchema_eq (p : CsvProcessed) :
    csvRowSchema p =
      (match csvRowBase p with
       | .error es => .error es
       | .ok d =>
           match refineIssues d with
           | [] => .ok d
           | es => .error es) := rfl

theorem c8_row_ok {b : StoredBuyer} (h : roundTrippable b = true) :
    csvRowSchema (processRow (exportRow b)) = .ok (leadOf b) := by
  simp only [roundTrippable, Bool.and_eq_true] at h
  obtain ⟨⟨⟨⟨⟨⟨⟨⟨⟨⟨⟨⟨⟨⟨hfn, hem⟩, hph⟩, hci⟩, hpt⟩, hbk⟩, hpu⟩, hm1⟩, hm2⟩, hmm⟩,
    htl⟩, hso⟩, hst⟩, hno⟩, htg⟩ := h
  have hemail : parseEmail (some (b.email.getD "")) = .ok (some (b.email.getD "")) := by
    cases hbe : b.email with
    | none => rfl
    | some e =>
        simp only [hbe, Bool.and_eq_true, bne_iff_ne] at hem
        simp only [Option.getD_some]
        exact parseEmail_ok hem.1 hem.2
  have hbhk : parseEnumOpt "bhk" bhkEnum (some (b.bhk.getD "")) = .ok b.bhk := by
    cases hbb : b.bhk with
    | none => rw [hbb] at hbk; simp at hbk
    | some s =>
        rw [hbb] at hbk
        simp only [Option.getD_some]
        exact parseEnumOpt_ok hbk
  have hbudget : ∀ (field : String) (o : Option Int),
      (match o with | none => true | some n => decide (0 < n)) = true →
      parseBudgetCsv field
        (if ((match o with | none => "" | some n => intToDecimal n) == "") = true
         then NumField.absent
         else parseIntJS (match o with | none => "" | some n => intToDecimal n))
        = .ok o := by
    intro field o ho
    cases hoo : o with
    | none => rfl
    | some n =>
        rw [hoo] at ho
        simp only [decide_eq_true_eq] at ho
        simp only
        rw [exportBudgetCell ho]
        have hn0 : (0:Int) ≤ n := by omega
        simp [parseBudgetCsv, hn0]
  have hnotes : parseNotes (some (b.notes.getD "")) = .ok (some (b.notes.getD "")) := by
    cases hbn : b.notes with
    | none => rfl
    | some s =>
        simp only [hbn, Bool.and_eq_true, bne_iff_ne] at hno
        simp only [Option.getD_some]
        exact parseNotes_ok hno.2
  have htags : tagsTransform (joinComma b.tags) = b.tags := by
    apply tagsTransform_joinComma
    intro t ht
    rw [List.all_eq_true] at htg
    simpa using htg t ht
  have hbhkSome : b.bhk.isNone = false := by
    cases hbb : b.bhk with
    | none => rw [hbb] at hbk; simp at hbk
    | some s => rfl
  have hrefine : refineIssues
      ⟨b.fullName, some (b.email.getD ""), b.phone, b.city, b.propertyType, b.bhk,
        b.purpose, b.budgetMin, b.budgetMax, b.timeline, b.source, b.status,
        some (b.notes.getD ""), b.tags⟩ = [] := by
    have hb1 : bhkRefineOk
        ⟨b.fullName, some (b.email.getD ""), b.phone, b.city, b.propertyType, b.bhk,
          b.purpose, b.budgetMin, b.budgetMax, b.timeline, b.source, b.status,
          some (b.notes.getD ""), b.tags⟩ = true := by
      simp [bhkRefineOk, hbhkSome]
    have hb2 : budgetRefineOk
        ⟨b.fullName, some (b.email.getD ""), b.phone, b.city, b.propertyType, b.bhk,
          b.purpose, b.budgetMin, b.budgetMax, b.timeline, b.source, b.status,
          some (b.notes.getD ""), b.tags⟩ = true := by
      simp only [budgetRefineOk]
      cases hq1 : b.budgetMin with
      | none => simp [numTruthy]
      | some m =>
          cases hq2 : b.budgetMax with
          | none => simp [numTruthy]
          | some mx =>
              rw [hq1] at hm1
              rw [hq2] at hm2
              rw [hq1, hq2] at hmm
              simp only [decide_eq_true_eq] at hm1 hm2 hmm
              have hmne : m ≠ 0 := by omega
              have hmxne : mx ≠ 0 := by omega
              simp [numTruthy, hmne, hmxne, hmm]
    simp [refineIssues, hb1, hb2]
  have hbase : csvRowBase (processRow (exportRow b)) =
      .ok ⟨b.fullName, some (b.email.getD ""), b.phone, b.city, b.propertyType, b.bhk,
        b.purpose, b.budgetMin, b.budgetMax, b.timeline, b.source, b.status,
        some (b.notes.getD ""), b.tags⟩ := by
    have p1 : (processRow (exportRow b)).fullName = b.fullName := rfl
    have p2 : (processRow (exportRow b)).email = b.email.getD "" := rfl
    have p3 : (processRow (exportRow b)).phone = b.phone := rfl
    have p4 : (processRow (exportRow b)).city = b.city := rfl
    have p5 : (processRow (exportRow b)).propertyType = b.propertyType := rfl
    have p6 : (processRow (exportRow b)).bhk = b.bhk.getD "" := rfl
    have p7 : (processRow (exportRow b)).purpose = b.purpose := rfl
    have p8 : (processRow (exportRow b)).budgetMin =
        (if ((match b.budgetMin with | none => "" | some n => intToDecimal n) == "") = true
         then NumField.absent
         else parseIntJS (match b.budgetMin with | none => "" | some n => intToDecimal n)) := rfl
    have p9 : (processRow (exportRow b)).budgetMax =
        (if ((match b.budgetMax with | none => "" | some n => intToDecimal n) == "") = true
         then NumField.absent
         else parseIntJS (match b.budgetMax with | none => "" | some n => intToDecimal n)) := rfl
    have p10 : (processRow (exportRow b)).timeline = b.timeline := rfl
    have p11 : (processRow (exportRow b)).source = b.source := rfl
    have p12 : (processRow (exportRow b)).status = b.status := rfl
    have p13 : (processRow (exportRow b)).notes = b.notes.getD "" := rfl
    have p14 : (processRow (exportRow b)).tags = joinComma b.tags := rfl
    rw [csvRowBase, p1, p2, p3, p4, p5, p6, p7, p8, p9, p10, p11, p12, p13, p14]
    rw [parseFullName_ok hfn, parsePhone_ok hph, parseEnum_ok hci, parseEnum_ok hpt,
      parseEnum_ok hpu, parseEnum_ok htl, parseEnum_ok hso, parseStatus_ok hst,
      hemail, hbhk, hnotes, htags,
      hbudget "budgetMin" b.budgetMin hm1, hbudget "budgetMax" b.budgetMax hm2]
    rfl
  rw [csvRowSchema_eq, hbase]
  simp only [hrefine]
  rfl

-- C8: pipeline ----------------------------------------------------------

theorem c8_insert_domainEq {b : StoredBuyer} (oid id : Nat) (now : Int)
    (h : roundTrippable b = true) :
    domainEq (insertBuyer oid id now (leadOf b)) b = true := by
  simp only [roundTrippable, Bool.and_eq_true] at h
  obtain ⟨⟨⟨⟨⟨⟨⟨⟨⟨⟨⟨⟨⟨⟨hfn, hem⟩, hph⟩, hci⟩, hpt⟩, hbk⟩, hpu⟩, hm1⟩, hm2⟩, hmm⟩,
    htl⟩, hso⟩, hst⟩, hno⟩, htg⟩ := h
  have hemb : (if (b.email.getD "" == "") = true then none
      else some (b.email.getD "")) = b.email := by
    cases hbe : b.email with
    | none => rfl
    | some e =>
        simp only [hbe, Bool.and_eq_true, bne_iff_ne] at hem
        simp [hbe, Option.getD_some, hem.1]
  have hbm : (match b.budgetMin with
      | some n => if n == 0 then none else some n
      | none => none) = b.budgetMin := by
    cases hq : b.budgetMin with
    | none => rfl
    | some n =>
        rw [hq] at hm1
        simp only [decide_eq_true_eq] at hm1
        have : n ≠ 0 := by omega
        simp [this]
  have hbM : (match b.budgetMax with
      | some n => if n == 0 then none else some n
      | none => none) = b.budgetMax := by
    cases hq : b.budgetMax with
    | none => rfl
    | some n =>
        rw [hq] at hm2
        simp only [decide_eq_true_eq] at hm2
        have : n ≠ 0 := by omega
        simp [this]
  have hnt : (if (b.notes.getD "" == "") = true then none
      else some (b.notes.getD "")) = b.notes := by
    cases hbn : b.notes with
    | none => rfl
    | some s =>
        simp only [hbn, Bool.and_eq_true, bne_iff_ne] at hno
        simp [hbn, Option.getD_some, hno.1]
  have hnb : insertBuyer oid id now (leadOf b) =
      { id := id, fullName := b.fullName, email := b.email, phone := b.phone,
        city := b.city, propertyType := b.propertyType, bhk := b.bhk,
        purpose := b.purpose, budgetMin := b.budgetMin, budgetMax := b.budgetMax,
        timeline := b.timeline, source := b.source, status := b.status,
        notes := b.notes, tags := b.tags, ownerId := oid, createdAt := now,
        updatedAt := now } := by
    rw [insertBuyer]
    simp only [leadOf]
    rw [hemb, hbm, hbM, hnt]
  rw [hnb]
  simp [domainEq]

theorem c8_validRows : ∀ bs : List StoredBuyer,
    (∀ b ∈ bs, roundTrippable b = true) →
    collectValidRows (bs.map exportRow) = bs.map leadOf := by
  intro bs
  induction bs with
  | nil => intro _; rfl
  | cons b rest ih =>
      intro hall
      rw [List.map_cons, List.map_cons, collectValidRows, List.filterMap_cons]
      rw [c8_row_ok (hall b (List.mem_cons_self b rest))]
      simp only [Except.toOption]
      exact congrArg (leadOf b :: ·) (ih (fun x hx => hall x (List.mem_cons_of_mem b hx)))

theorem c8_insertAll (u : ReqUser) (now : Int) :
    ∀ (bs : List StoredBuyer) (nextId : Nat) (st : Store),
    (∀ b ∈ bs, roundTrippable b = true) →
    List.Forall₂ (fun nb b => domainEq nb b = true)
      (insertAllRows u (bs.map leadOf) nextId now st).1 bs := by
  intro bs
  induction bs with
  | nil =>
      intro nextId st _
      rw [List.map_nil]
      have hnil : insertAllRows u [] nextId now st = ([], st) := rfl
      rw [hnil]
      exact List.Forall₂.nil
  | cons b rest ih =>
      intro nextId st hall
      rw [List.map_cons]
      have hstep : (insertAllRows u (leadOf b :: rest.map leadOf) nextId now st).1
          = insertBuyer u.id nextId now (leadOf b) ::
            (insertAllRows u (rest.map leadOf) (nextId + 1) now
              (recordHistory
                { st with buyers := st.buyers ++ [insertBuyer u.id nextId now (leadOf b)] }
                (insertBuyer u.id nextId now (leadOf b)).id u.id
                (.imported (leadOf b)))).1 := rfl
      rw [hstep]
      exact List.Forall₂.cons
        (c8_insert_domainEq u.id nextId now (hall b (List.mem_cons_self b rest)))
        (ih (nextId + 1) _ (fun x hx => hall x (List.mem_cons_of_mem b hx)))

/-- C8 counterexample: the claim says every set of leads survives
export followed by re-import with equivalent domain fields. Two
failures: the demo buyer (a Plot lead with null bhk) exports an empty
bhk cell that the optional enum of the row schema rejects, so the whole
batch commits nothing and reproduces no lead at all; and a tag
containing a comma is split into two tags by the join/split cycle. -/
theorem c8_roundtrip_counterexample :
    importBuyers demoUser [exportRow plotNoBudgetBuyer] 5 3000 demoStore
      = (.validationFailed [(1, ["bhk: Invalid option"])] 0 1, demoStore) ∧
    ((csvRowSchema (processRow (exportRow commaTagBuyer))).toOption.map Lead.tags)
      = some ["a", "b"] ∧
    commaTagBuyer.tags = ["a,b"] :=
  ⟨by decide, by decide, rfl⟩

/-- C8 amended: export followed by re-import reproduces domain-field
equivalent leads for every batch (within the import caps) of leads that
are round-trippable: schema-conformant fields, a present bhk, strictly
positive ordered budgets, no empty-string email or notes, and tags that
are non-empty, comma-free and trim-stable. A lead with absent bhk, a
zero budget, or a tag with a comma or surrounding whitespace is not
reproduced (see the counterexample). -/
theorem c8_export_import_roundtrip (u : ReqUser) (bs : List StoredBuyer)
    (nextId : Nat) (now : Int) (st : Store)
    (h1 : bs ≠ []) (h2 : bs.length ≤ 200)
    (h3 : ∀ b ∈ bs, roundTrippable b = true) :
    ∃ ins st2, importBuyers u (bs.map exportRow) nextId now st = (.success ins, st2) ∧
      List.Forall₂ (fun nb b => domainEq nb b = true) ins bs := by
  have hvalid : ∀ r ∈ bs.map exportRow, rowValid r = true := by
    intro r hr
    rcases List.mem_map.mp hr with ⟨b, hb, rfl⟩
    exact rowValid_eq_true (c8_row_ok (h3 b hb))
  have herr : collectRowErrors (bs.map exportRow) 0 = [] :=
    (collectRowErrors_nil_iff _ 0).mpr hvalid
  have hvr : collectValidRows (bs.map exportRow) = bs.map leadOf := c8_validRows bs h3
  have hl : ((bs.map exportRow).length == 0) = false := by
    have : bs.length ≠ 0 := by
      intro hz; exact h1 (List.length_eq_zero.mp hz)
    simp [List.length_map, this]
  have hcap : ¬ 200 < (bs.map exportRow).length := by
    rw [List.length_map]; omega
  have himp : importBuyers u (bs.map exportRow) nextId now st =
      (.success (insertAllRows u (bs.map leadOf) nextId now st).1,
       (insertAllRows u (bs.map leadOf) nextId now st).2) := by
    rw [importBuyers]
    simp only [hl, Bool.false_eq_true, if_false]
    rw [if_neg hcap]
    simp only [herr, List.isEmpty_nil, Bool.not_true, Bool.false_eq_true, if_false, hvr]
  exact ⟨_, _, himp, c8_insertAll u now bs nextId st h3⟩

/-- Witness for C8 (amended): the demo buyer with a bedroom-count class
round-trips through export and import into a domain-equivalent lead. -/
theorem c8_export_import_roundtrip_witness :
    ∃ ins st2, importBuyers demoUser ([demoBuyerBhk].map exportRow) 5 3000 demoStore
        = (.success ins, st2) ∧
      List.Forall₂ (fun nb b => domainEq nb b = true) ins [demoBuyerBhk] :=
  c8_export_import_roundtrip demoUser [demoBuyerBhk] 5 3000 demoStore
    (by simp) (by simp)
    (by
      intro b hb
      rw [List.mem_singleton.mp hb]
      decide)
